import Mathlib

/-!
Verification development for the PCB trace extractor (`trace_extractor.py`).

The Python source is shallowly embedded: coordinates, lengths and graph
weights (Python floats) are modelled as exact rationals `ℚ`; the
transcendental impedance formulas are modelled over `ℝ`; Python `None`
results become `Option`; Python exceptions that escape a function become
explicit error values.  The external geometry engine (shapely's
buffered-shape intersection, used only as the secondary connectivity
check) is modelled as an abstract boolean oracle `geo` threaded through
the definitions; everything else is translated directly from the source.
-/

/- Batteries marks the `Rat` field operations `@[irreducible]`, which blocks
`decide` from evaluating the rational arithmetic of the embedded model on
concrete boards.  Restoring the default reducibility only changes
elaboration-time transparency; kernel-level definitional unfolding (what
the final certificates rely on) is unaffected. -/
set_option allowUnsafeReducibility true in
attribute [semireducible] Rat.add Rat.mul Rat.inv Rat.sub Rat.ofScientific

namespace PCB

/-! ### Configuration constants (`trace_extractor.py`, module top) -/

def MILS_TO_MM : ℚ := 254 / 10000
def CONNECT_TOLERANCE : ℚ := 2
def FALLBACK_TOLERANCE : ℚ := 1
def MAX_TRACK_WEIGHT : ℚ := 1 / 100000
def DEFAULT_WEIGHT : ℚ := 1 / 10000

/-- Python `round(x, 2)` (banker's rounding, ties to even) on exact rationals:
round `y` to the nearest integer, ties to the even integer. -/
def roundHalfEven (y : ℚ) : ℤ :=
  let f := ⌊y⌋
  let r := y - f
  if r < 1 / 2 then f
  else if 1 / 2 < r then f + 1
  else if Even f then f else f + 1

/-- `round(c, POINT_ROUNDING_PRECISION)` with `POINT_ROUNDING_PRECISION = 2`. -/
def roundC (x : ℚ) : ℚ := (roundHalfEven (x * 100) : ℚ) / 100

/-- `self.round_point(point)`: round both coordinates to 2 decimals. -/
def roundPoint (p : ℚ × ℚ) : ℚ × ℚ := (roundC p.1, roundC p.2)

/-! ### Geometric object model -/

structure PadData where
  designator : String
  pad_number : String
  net_name : String
  location : ℚ × ℚ
  layer : ℤ
  width : ℚ
  height : ℚ
  hole_size : ℚ
  rotation : ℚ
  shape : String
deriving DecidableEq

structure TrackData where
  start : ℚ × ℚ
  endp : ℚ × ℚ          -- `end` in the source (`end` is reserved in Lean)
  net_name : String
  layer : ℤ
  length : ℚ
  width : Option ℚ       -- `Track.__init__` never sets `width`; tests assign it
deriving DecidableEq

structure ArcData where
  center : ℚ × ℚ
  radius : ℚ
  start_angle : ℚ
  end_angle : ℚ
  start : ℚ × ℚ
  endp : ℚ × ℚ
  net_name : String
  layer : ℤ
  length : ℚ
deriving DecidableEq

structure ViaData where
  location : ℚ × ℚ
  net_name : String
  from_layer : ℤ
  to_layer : ℤ
  hole_size : ℚ
deriving DecidableEq

inductive NetObject where
  | pad (p : PadData)
  | track (t : TrackData)
  | arc (a : ArcData)
  | via (v : ViaData)
deriving DecidableEq

namespace NetObject

def net_name : NetObject → String
  | .pad p => p.net_name
  | .track t => t.net_name
  | .arc a => a.net_name
  | .via v => v.net_name

/-- `length` attribute: 0 for pads and vias (set in the base class),
the stored length for tracks and arcs. -/
def length : NetObject → ℚ
  | .pad _ => 0
  | .track t => t.length
  | .arc a => a.length
  | .via _ => 0

/-- `endpoints()`: centers for pads/vias, the two stored ends for tracks/arcs. -/
def endpoints : NetObject → List (ℚ × ℚ)
  | .pad p => [p.location]
  | .track t => [t.start, t.endp]
  | .arc a => [a.start, a.endp]
  | .via v => [v.location]

/-- Layer set: pads with a positive hole size and vias report `{"ALL"}`. -/
inductive Layers where
  | all
  | only (n : ℤ)
deriving DecidableEq

def get_layers : NetObject → Layers
  | .pad p => if p.hole_size > 0 then .all else .only p.layer
  | .track t => .only t.layer
  | .arc a => .only a.layer
  | .via _ => .all

def isLinear : NetObject → Bool
  | .track _ => true
  | .arc _ => true
  | _ => false

def isPad : NetObject → Bool
  | .pad _ => true
  | _ => false

end NetObject

/-- Lexicographic comparison of rational points, mirroring Python tuple
comparison `p1 > p2` used to sort a track's rounded endpoint pair. -/
def pointLe (p q : ℚ × ℚ) : Bool :=
  decide (p.1 < q.1) || (decide (p.1 = q.1) && decide (p.2 ≤ q.2))

/-- Order-normalised rounded endpoint pair (`if p1 > p2: p1, p2 = p2, p1`). -/
def sortedRounded (a b : ℚ × ℚ) : (ℚ × ℚ) × (ℚ × ℚ) :=
  let p1 := roundPoint a
  let p2 := roundPoint b
  if pointLe p1 p2 then (p1, p2) else (p2, p1)

/-- Value-level identity used by Python `__hash__`/`__eq__` on net objects:
pads compare by (designator, pad number); tracks by order-independent rounded
endpoints, layer and net; arcs additionally by rounded center and radius
(the `< 1e-3` radius tolerance on values already rounded to 2 decimals is
exactly equality of the rounded radii); vias by rounded location and net.
Objects of different classes never compare equal. -/
inductive ObjKey where
  | pad (designator pad_number : String)
  | track (p1 p2 : (ℚ × ℚ)) (layer : ℤ) (net : String)
  | arc (p1 p2 : (ℚ × ℚ)) (center : ℚ × ℚ) (radius : ℚ) (layer : ℤ) (net : String)
  | via (loc : ℚ × ℚ) (net : String)
deriving DecidableEq

def objKey : NetObject → ObjKey
  | .pad p => .pad p.designator p.pad_number
  | .track t =>
      let pr := sortedRounded t.start t.endp
      .track pr.1 pr.2 t.layer t.net_name
  | .arc a =>
      let pr := sortedRounded a.start a.endp
      .arc pr.1 pr.2 (roundPoint a.center) (roundC a.radius) a.layer a.net_name
  | .via v => .via (roundPoint v.location) v.net_name

/-! ### Connectivity detector (`NetObject.is_connected`) -/

/-- Layer compatibility: connection allowed unless both layer sets are
concrete and disjoint (`"ALL" not in l1 and "ALL" not in l2 and disjoint`). -/
def layersCompatible (a b : NetObject) : Bool :=
  match a.get_layers, b.get_layers with
  | .all, _ => true
  | _, .all => true
  | .only m, .only n => decide (m = n)

def distSq (p q : ℚ × ℚ) : ℚ := (p.1 - q.1) ^ 2 + (p.2 - q.2) ^ 2

/-- Check 1 of `is_connected`: some pair of endpoints within Euclidean
`tolerance` (`math.hypot(dx, dy) <= tolerance`, stated on squares to stay
in `ℚ`). -/
def endpointsClose (a b : NetObject) (tolerance : ℚ) : Bool :=
  a.endpoints.any fun p => b.endpoints.any fun q =>
    decide (distSq p q ≤ tolerance ^ 2)

/-- The type of the abstract geometry oracle standing for check 2 of
`is_connected`: shapely intersection of both geometries buffered outward by
`tolerance * 0.1`.  Any shapely exception is swallowed to `false` by the
source, so the oracle is total.  (The source re-checks layer compatibility
inside check 2, but check 2 only runs after the up-front layer check has
already passed, so the re-check is redundant.) -/
abbrev GeoOracle := NetObject → NetObject → ℚ → Bool

/-- `NetObject.is_connected(self, other, tolerance)`. -/
def is_connected (geo : GeoOracle) (a b : NetObject) (tolerance : ℚ) : Bool :=
  if a.net_name ≠ b.net_name then false
  else if ¬ layersCompatible a b then false
  else if endpointsClose a b tolerance then true
  else geo a b tolerance

/-! ### A small weighted-graph model (for `networkx.Graph` + Dijkstra)

Nodes are compared by a key function (for `NetObject` nodes the key is
`objKey`, mirroring Python `__hash__`/`__eq__`; for `(component, pad)`
nodes it is the identity).  The first object stored for a key remains the
canonical node, as in networkx. -/

structure WGraph (α : Type) where
  nodes : List α
  edges : List (α × α × ℚ)
deriving DecidableEq

namespace WGraph

variable {α : Type} {κ : Type} [DecidableEq κ]

def empty : WGraph α := ⟨[], []⟩

def hasNode (k : α → κ) (G : WGraph α) (a : α) : Bool :=
  G.nodes.any fun n => decide (k n = k a)

/-- The stored representative for `a`'s key (the first node added with it). -/
def rep (k : α → κ) (G : WGraph α) (a : α) : α :=
  match G.nodes.find? (fun n => decide (k n = k a)) with
  | some n => n
  | none => a

def addNode (k : α → κ) (G : WGraph α) (a : α) : WGraph α :=
  if G.hasNode k a then G else { G with nodes := G.nodes ++ [a] }

def addNodes (k : α → κ) (G : WGraph α) (l : List α) : WGraph α :=
  l.foldl (fun g a => g.addNode k a) G

def edgeMatches (k : α → κ) (a b : α) (e : α × α × ℚ) : Bool :=
  (decide (k e.1 = k a) && decide (k e.2.1 = k b)) ||
  (decide (k e.1 = k b) && decide (k e.2.1 = k a))

/-- Weight of the stored edge between `a` and `b`, if any. -/
def edgeWeight (k : α → κ) (G : WGraph α) (a b : α) : Option ℚ :=
  (G.edges.find? (edgeMatches k a b)).map fun e => e.2.2

def hasEdge (k : α → κ) (G : WGraph α) (a b : α) : Bool :=
  (G.edgeWeight k a b).isSome

/-- `G.add_edge(a, b, weight=w)` for a fresh edge (every call site in the
source guards with `has_edge` first, so no overwrite happens here).
Endpoints are stored as the canonical representatives, and missing nodes
are added, as networkx does. -/
def addEdge (k : α → κ) (G : WGraph α) (a b : α) (w : ℚ) : WGraph α :=
  { nodes := ((G.addNode k a).addNode k b).nodes
    edges := ((G.addNode k a).addNode k b).edges ++
      [(((G.addNode k a).addNode k b).rep k a, ((G.addNode k a).addNode k b).rep k b, w)] }

/-- `G.add_edge` with networkx overwrite semantics (used by the multi-net
analyzer, which re-adds the symmetric pad pair with the same weight). -/
def addEdgeOW (k : α → κ) (G : WGraph α) (a b : α) (w : ℚ) : WGraph α :=
  if G.hasEdge k a b then
    { G with edges := G.edges.map fun e => if edgeMatches k a b e then (e.1, e.2.1, w) else e }
  else G.addEdge k a b w

def neighbors (k : α → κ) (G : WGraph α) (a : α) : List (α × ℚ) :=
  G.edges.foldr
    (fun e acc =>
      if decide (k e.1 = k a) then (e.2.1, e.2.2) :: acc
      else if decide (k e.2.1 = k a) then (e.1, e.2.2) :: acc
      else acc)
    []

end WGraph

/-! ### Dijkstra (`networkx.shortest_path(G, source, target, weight='weight')`)

A standard priority-queue Dijkstra over the stored edges.  The source's
graphs have positive weights, so the returned path is a minimum-weight
path; its node sequence consists of stored representatives.  On graphs
with a unique optimum (all concrete instances in this file) any correct
Dijkstra — networkx's included — returns the same node sequence. -/

section Dijkstra

variable {α : Type} {κ : Type} [DecidableEq κ]

/-- First entry of minimal tentative distance (ties to the earlier entry). -/
def pickMin : List (α × ℚ × List α) → Option (α × ℚ × List α)
  | [] => none
  | e :: rest =>
    match pickMin rest with
    | none => some e
    | some e' => if e.2.1 ≤ e'.2.1 then some e else some e'

/-- Insert/improve the tentative entry for `v` (one entry per key). -/
def relaxQ (k : α → κ) (v : α) (d : ℚ) (p : List α) :
    List (α × ℚ × List α) → List (α × ℚ × List α)
  | [] => [(v, d, p)]
  | e :: rest =>
    if decide (k e.1 = k v) then
      if e.2.1 ≤ d then e :: rest else (v, d, p) :: rest
    else e :: relaxQ k v d p rest

def dijkstraLoop (k : α → κ) (G : WGraph α) (tgt : κ) :
    ℕ → List (α × ℚ × List α) → List κ → Option (List α)
  | 0, _, _ => none
  | fuel + 1, q, visited =>
    match pickMin q with
    | none => none
    | some (u, du, pu) =>
      if k u = tgt then some pu.reverse
      else
        let q1 := q.filter fun e => decide (k e.1 ≠ k u)
        let vis := k u :: visited
        let q2 := (G.neighbors k u).foldl
          (fun acc vw =>
            if vis.any (fun x => decide (x = k vw.1)) then acc
            else relaxQ k vw.1 (du + vw.2) (vw.1 :: pu) acc)
          q1
        dijkstraLoop k G tgt fuel q2 vis

/-- Weighted shortest path; `none` models both `NetworkXNoPath` and
`NodeNotFound`, each of which every caller in the source converts to the
same no-result outcome. -/
def dijkstra (k : α → κ) (G : WGraph α) (src tgt : α) : Option (List α) :=
  if G.hasNode k src && G.hasNode k tgt then
    dijkstraLoop k G (k tgt) (G.nodes.length + 1) [(G.rep k src, 0, [G.rep k src])] []
  else none

end Dijkstra

/-! ### Edge-weight policies and the graph builders -/

/-- The shared strategy-A weight policy (identical code appears in
`build_accurate_graph` and `build_bidirectional_graph`): default small
constant; if either object is a Track/Arc, the first such operand's length
in mm floored at `MAX_TRACK_WEIGHT`; a Pad↔Track/Arc edge is overridden to
`MAX_TRACK_WEIGHT`. -/
def edgeWeightPolicy (o1 o2 : NetObject) : ℚ :=
  let w :=
    if o1.isLinear then max (o1.length * MILS_TO_MM) MAX_TRACK_WEIGHT
    else if o2.isLinear then max (o2.length * MILS_TO_MM) MAX_TRACK_WEIGHT
    else DEFAULT_WEIGHT
  if (o1.isPad && o2.isLinear) || (o2.isPad && o1.isLinear) then MAX_TRACK_WEIGHT else w

/-- The weight used by the (unused) `build_fallback_graph`: average of the
two lengths in mm floored at `DEFAULT_WEIGHT`, same Pad↔Track override. -/
def fallbackWeightPolicy (o1 o2 : NetObject) : ℚ :=
  let w := max ((o1.length + o2.length) / 2 * MILS_TO_MM) DEFAULT_WEIGHT
  if (o1.isPad && o2.isLinear) || (o2.isPad && o1.isLinear) then MAX_TRACK_WEIGHT else w

/-- `build_point_to_objects_map`: rounded point → objects touching it, in
first-encounter order, deduplicated by Python object equality. -/
def addToBucket (pt : ℚ × ℚ) (o : NetObject) :
    List ((ℚ × ℚ) × List NetObject) → List ((ℚ × ℚ) × List NetObject)
  | [] => [(pt, [o])]
  | (p, objs) :: rest =>
    if p = pt then
      (p, if objs.any (fun x => decide (objKey x = objKey o)) then objs else objs ++ [o]) :: rest
    else (p, objs) :: addToBucket pt o rest

def build_point_to_objects_map (net_objs : List NetObject) :
    List ((ℚ × ℚ) × List NetObject) :=
  net_objs.foldl
    (fun m o => o.endpoints.foldl (fun m' pt => addToBucket (roundPoint pt) o m') m)
    []

/-- Inner edge loop over all ordered pairs `(i, j)` with `i < j` of one
point bucket (`build_accurate_graph`) or of the whole object list
(tolerance builders); `conn` decides whether to connect and `wf` gives the
weight.  Each add is guarded by `has_edge` as in the source. -/
def innerPairLoop (conn : NetObject → NetObject → Bool) (wf : NetObject → NetObject → ℚ)
    (o1 : NetObject) : List NetObject → WGraph NetObject → WGraph NetObject
  | [], G => G
  | o2 :: rest, G =>
    innerPairLoop conn wf o1 rest
      (if conn o1 o2 && !(G.hasEdge objKey o1 o2) then G.addEdge objKey o1 o2 (wf o1 o2) else G)

def pairLoop (conn : NetObject → NetObject → Bool) (wf : NetObject → NetObject → ℚ) :
    List NetObject → WGraph NetObject → WGraph NetObject
  | [], G => G
  | o1 :: rest, G => pairLoop conn wf rest (innerPairLoop conn wf o1 rest G)

/-- `build_accurate_graph(net_objs, pad_a, pad_b)`: nodes for every object;
edges between every pair sharing a rounded endpoint, weighted by the
strategy-A policy; target pads ensured present. -/
def build_accurate_graph (net_objs : List NetObject) (pad_a pad_b : PadData) :
    WGraph NetObject :=
  let G := WGraph.empty.addNodes objKey net_objs
  let G := (build_point_to_objects_map net_objs).foldl
    (fun g bucket => pairLoop (fun _ _ => true) edgeWeightPolicy bucket.2 g) G
  (G.addNode objKey (.pad pad_a)).addNode objKey (.pad pad_b)

/-- `build_bidirectional_graph(net_objs, pad_a, pad_b)`: edges between every
`is_connected` pair (default tolerance), strategy-A weight policy. -/
def build_bidirectional_graph (geo : GeoOracle) (net_objs : List NetObject)
    (pad_a pad_b : PadData) : WGraph NetObject :=
  let G := WGraph.empty.addNodes objKey net_objs
  let G := pairLoop (fun o1 o2 => is_connected geo o1 o2 CONNECT_TOLERANCE) edgeWeightPolicy
    net_objs G
  (G.addNode objKey (.pad pad_a)).addNode objKey (.pad pad_b)

/-- `build_fallback_graph` (present in the source but commented out of the
strategy list): `is_connected` at `FALLBACK_TOLERANCE`, averaged weight. -/
def build_fallback_graph (geo : GeoOracle) (net_objs : List NetObject)
    (pad_a pad_b : PadData) : WGraph NetObject :=
  let G := WGraph.empty.addNodes objKey net_objs
  let G := pairLoop (fun o1 o2 => is_connected geo o1 o2 FALLBACK_TOLERANCE) fallbackWeightPolicy
    net_objs G
  (G.addNode objKey (.pad pad_a)).addNode objKey (.pad pad_b)

/-- `calculate_path_length(path)`: sum of the `length` attribute of the
Track/Arc nodes of the path (mils), converted to mm. -/
def calculate_path_length (path : List NetObject) : ℚ :=
  ((path.filter (fun o => o.isLinear)).map (fun o => o.length)).sum * MILS_TO_MM

/-! ### Extractor state and the cached path finder -/

def alookup {κ β : Type} [DecidableEq κ] : List (κ × β) → κ → Option β
  | [], _ => none
  | (k, v) :: rest, k' => if k = k' then some v else alookup rest k'

/-- The mutable state of a `PCBTraceExtractor` instance. -/
structure State where
  objects : List NetObject
  pads : List PadData
  pad_cache : List ((String × String) × PadData)
  connection_cache : List ((((String × String)) × ((String × String))) × Option ℚ)
deriving DecidableEq

def emptyState : State := ⟨[], [], [], []⟩

/-- Python string comparison: lexicographic by Unicode code point. -/
def charListLt : List Char → List Char → Bool
  | [], [] => false
  | [], _ :: _ => true
  | _ :: _, [] => false
  | a :: as, b :: bs =>
    if a.toNat < b.toNat then true
    else if b.toNat < a.toNat then false
    else charListLt as bs

def strLt (s t : String) : Bool := charListLt s.data t.data

def strLe (s t : String) : Bool := strLt s t || decide (s = t)

/-- Lexicographic `≤` on `(designator, pad_number)` pairs, mirroring Python
tuple comparison inside `sorted`. -/
def pairLe (x y : String × String) : Bool :=
  strLt x.1 y.1 || (decide (x.1 = y.1) && strLe x.2 y.2)

/-- `cache_key = tuple(sorted((key_part1, key_part2)))`. -/
def sortKey (a b : String × String) : (String × String) × (String × String) :=
  if pairLe a b then (a, b) else (b, a)

/-- Pad resolution: `pad_cache` lookup, else first linear scan of
`self.pads`, recording a successful scan in the cache. -/
def resolvePad (s : State) (c p : String) : Option PadData × State :=
  match alookup s.pad_cache (c, p) with
  | some pad => (some pad, s)
  | none =>
    match s.pads.find? (fun q => decide (q.designator = c) && decide (q.pad_number = p)) with
    | some pad => (some pad, { s with pad_cache := ((c, p), pad) :: s.pad_cache })
    | none => (none, s)

/-- The value `resolvePad` produces, ignoring the cache update. -/
def resolveVal (s : State) (c p : String) : Option PadData :=
  (resolvePad s c p).1

/-- Store a (possibly negative) result in the connection cache. -/
def storeCC (s : State) (key : (String × String) × (String × String)) (res : Option ℚ) :
    State :=
  { s with connection_cache := (key, res) :: s.connection_cache }

/-- The same-net object list used by both the extractor and the path-detail
query: all objects on the net, with the two pads appended if missing (they
never are after a load, since loaded pads are in `objects`). -/
def netObjsFor (objects : List NetObject) (pad_a pad_b : PadData) : List NetObject :=
  let l := objects.filter fun o => decide (o.net_name = pad_a.net_name)
  let l := if l.any (fun o => decide (objKey o = objKey (.pad pad_a))) then l
           else l ++ [NetObject.pad pad_a]
  if l.any (fun o => decide (objKey o = objKey (.pad pad_b))) then l
  else l ++ [NetObject.pad pad_b]

/-- The strategy loop of `extract_traces_between_pads`: the exact-endpoint
graph is tried first and wins outright when it yields a path (`break`);
otherwise the tolerance graph is tried.  (`build_fallback_graph` is
commented out of the strategy list in the source.) -/
def strategyResult (geo : GeoOracle) (objs : List NetObject) (pa pb : PadData) :
    Option ℚ :=
  match dijkstra objKey (build_accurate_graph objs pa pb) (.pad pa) (.pad pb) with
  | some path => some (calculate_path_length path)
  | none =>
    match dijkstra objKey (build_bidirectional_graph geo objs pa pb) (.pad pa) (.pad pb) with
    | some path => some (calculate_path_length path)
    | none => none

/-- The scalar a cache-miss run of `extract_traces_between_pads` computes:
`none` when either terminal fails to resolve or the nets differ, otherwise
the strategy loop's result.  (In the source the `None` cases are separate
early returns; each stores its result in the connection cache exactly as
the main path does, so the miss body factors as this value plus one store.) -/
def extractFresh (geo : GeoOracle) (s : State) (c1 p1 c2 p2 : String) : Option ℚ :=
  match (resolvePad s c1 p1).1, (resolvePad (resolvePad s c1 p1).2 c2 p2).1 with
  | some pa, some pb =>
    if pa.net_name = pb.net_name then
      strategyResult geo
        (netObjsFor ((resolvePad (resolvePad s c1 p1).2 c2 p2).2).objects pa pb) pa pb
    else none
  | _, _ => none

/-- The cache-miss body of `extract_traces_between_pads`: resolve both
terminals (updating the pad cache), compute the scalar, store it. -/
def extractMiss (geo : GeoOracle) (s : State) (c1 p1 c2 p2 : String)
    (key : (String × String) × (String × String)) : Option ℚ × State :=
  (extractFresh geo s c1 p1 c2 p2,
   storeCC ((resolvePad (resolvePad s c1 p1).2 c2 p2).2) key
     (extractFresh geo s c1 p1 c2 p2))

/-- `extract_traces_between_pads(c1, p1, c2, p2)`: trace length in mm, or
`none`, plus the updated state (pad cache and connection cache). -/
def extract (geo : GeoOracle) (s : State) (c1 p1 c2 p2 : String) : Option ℚ × State :=
  match alookup s.connection_cache (sortKey (c1, p1) (c2, p2)) with
  | some v => (v, s)
  | none => extractMiss geo s c1 p1 c2 p2 (sortKey (c1, p1) (c2, p2))

/-! ### Path-detail query (`get_trace_path`) -/

inductive PathElement where
  | trackE (start endp : ℚ × ℚ) (layer : ℤ) (length : ℚ) (net : String)
  | arcE (center : ℚ × ℚ) (radius : ℚ) (start endp : ℚ × ℚ) (layer : ℤ) (length : ℚ)
      (net : String)
  | viaE (location : ℚ × ℚ) (from_layer to_layer : ℤ) (net : String)
deriving DecidableEq

/-- Path elements of a node sequence: tracks, arcs and vias are described;
pads are skipped ("the start/end points"). -/
def pathElements : List NetObject → List PathElement
  | [] => []
  | .pad _ :: rest => pathElements rest
  | .track t :: rest => .trackE t.start t.endp t.layer t.length t.net_name :: pathElements rest
  | .arc a :: rest =>
      .arcE a.center a.radius a.start a.endp a.layer a.length a.net_name :: pathElements rest
  | .via v :: rest => .viaE v.location v.from_layer v.to_layer v.net_name :: pathElements rest

/-- Sum of the `length` fields of the Track/Arc elements (mils); Via
elements carry no length. -/
def elemLengthSumMils : List PathElement → ℚ
  | [] => 0
  | .trackE _ _ _ len _ :: rest => len + elemLengthSumMils rest
  | .arcE _ _ _ _ _ len _ :: rest => len + elemLengthSumMils rest
  | .viaE _ _ _ _ :: rest => elemLengthSumMils rest

inductive TracePathResult where
  | noPath
  | found (path_length_mm path_length_mils : ℚ) (net : String) (elems : List PathElement)
deriving DecidableEq

/-- The mm sum of the Track/Arc element lengths of a detail result. -/
def TracePathResult.elementsLengthMM : TracePathResult → Option ℚ
  | .noPath => none
  | .found _ _ _ elems => some (elemLengthSumMils elems * MILS_TO_MM)

/-- `get_trace_path(c1, p1, c2, p2)`: checks `extract_traces_between_pads`
first (mutating the caches), then rebuilds the tolerance graph only and
re-runs the shortest path to describe the elements. -/
def get_trace_path (geo : GeoOracle) (s : State) (c1 p1 c2 p2 : String) :
    TracePathResult × State :=
  match (extract geo s c1 p1 c2 p2).1 with
  | none => (.noPath, (extract geo s c1 p1 c2 p2).2)
  | some L =>
    match alookup (extract geo s c1 p1 c2 p2).2.pad_cache (c1, p1),
        alookup (extract geo s c1 p1 c2 p2).2.pad_cache (c2, p2) with
    | some pa, some pb =>
      match dijkstra objKey
          (build_bidirectional_graph geo
            (netObjsFor (extract geo s c1 p1 c2 p2).2.objects pa pb) pa pb)
          (.pad pa) (.pad pb) with
      | some path =>
        (.found L (L / MILS_TO_MM) pa.net_name (pathElements path),
         (extract geo s c1 p1 c2 p2).2)
      | none => (.noPath, (extract geo s c1 p1 c2 p2).2)
    | _, _ => (.noPath, (extract geo s c1 p1 c2 p2).2)

/-! ### Board loading (`load_json_file`)

Raw JSON records are modelled with `Option` for every field the source
reads with `record['field']` (a missing field raises `KeyError`, which
`load_json_file` does not catch) and for every field read with
`record.get(...)` (defaulted).  A location dict `{'x': .., 'y': ..}` is
collapsed to one optional point (missing dict and missing coordinate both
raise).  The loader clears the previous model right after JSON decoding
succeeds, then appends objects record by record; a missing required field
aborts at that record, leaving whatever was appended so far. -/

structure PadJson where
  padNumber : Option String    -- required (`p['padNumber']`, passed through `str`)
  netName : Option String      -- required
  location : Option (ℚ × ℚ)    -- required
  layer : Option ℤ
  width : Option ℚ
  height : Option ℚ
  holeSize : Option ℚ
  rotation : Option ℚ
  shape : Option String
deriving DecidableEq

structure ComponentJson where
  designator : Option String   -- required (`c['designator']`)
  layer : Option ℤ             -- `c.get('layer', 1)`
  pads : List PadJson          -- `c.get('pads', [])`
deriving DecidableEq

structure TrackJson where
  start : Option (ℚ × ℚ)       -- required
  endp : Option (ℚ × ℚ)        -- required (`t['end']`)
  netName : Option String      -- required
  layer : Option ℤ             -- required (`t['layer']`)
  length : Option ℚ            -- required
deriving DecidableEq

structure ArcJson where
  center : Option (ℚ × ℚ)
  radius : Option ℚ
  startAngle : Option ℚ
  endAngle : Option ℚ
  start : Option (ℚ × ℚ)
  endp : Option (ℚ × ℚ)
  netName : Option String
  layer : Option ℤ
  length : Option ℚ
deriving DecidableEq

structure ViaJson where
  location : Option (ℚ × ℚ)    -- required
  netName : Option String      -- required
  fromLayer : Option ℤ         -- required
  toLayer : Option ℤ           -- required
  holeSize : Option ℚ          -- `v.get('holeSize', 0)`
deriving DecidableEq

structure BoardData where
  components : List ComponentJson   -- `data.get('components', [])`
  tracks : List TrackJson
  arcs : List ArcJson
  vias : List ViaJson
deriving DecidableEq

/-- Accumulated model during a load; `Bool` is `false` once a `KeyError`
has escaped (aborting the remaining records). -/
abbrev LoadAcc := List NetObject × List PadData × List ((String × String) × PadData)

def parsePads (d : String) (compLayer : ℤ) :
    List PadJson → LoadAcc → LoadAcc × Bool
  | [], acc => (acc, true)
  | p :: rest, (objs, pads, pc) =>
    match p.padNumber, p.netName, p.location with
    | some num, some net, some loc =>
      let pad : PadData :=
        { designator := d, pad_number := num, net_name := net, location := loc
          layer := p.layer.getD compLayer, width := p.width.getD 0
          height := p.height.getD 0, hole_size := p.holeSize.getD 0
          rotation := p.rotation.getD 0, shape := p.shape.getD "Rectangular" }
      if pad.net_name ≠ "" then
        parsePads d compLayer rest (objs ++ [.pad pad], pads ++ [pad], ((d, num), pad) :: pc)
      else parsePads d compLayer rest (objs, pads, pc)
    | _, _, _ => ((objs, pads, pc), false)

def parseComponents : List ComponentJson → LoadAcc → LoadAcc × Bool
  | [], acc => (acc, true)
  | c :: rest, acc =>
    match c.designator with
    | some d =>
      let r := parsePads d (c.layer.getD 1) c.pads acc
      if r.2 then parseComponents rest r.1 else r
    | none => (acc, false)

def parseTracks : List TrackJson → LoadAcc → LoadAcc × Bool
  | [], acc => (acc, true)
  | t :: rest, (objs, pads, pc) =>
    match t.start, t.endp, t.netName, t.layer, t.length with
    | some st, some en, some net, some lay, some len =>
      let track : TrackData :=
        { start := st, endp := en, net_name := net, layer := lay, length := len
          width := none }
      if track.net_name ≠ "" ∧ track.length > 1 / 1000000 then
        parseTracks rest (objs ++ [.track track], pads, pc)
      else parseTracks rest (objs, pads, pc)
    | _, _, _, _, _ => ((objs, pads, pc), false)

def parseArcs : List ArcJson → LoadAcc → LoadAcc × Bool
  | [], acc => (acc, true)
  | a :: rest, (objs, pads, pc) =>
    match a.center, a.radius, a.startAngle, a.endAngle, a.start, a.endp,
        a.netName, a.layer, a.length with
    | some ce, some ra, some sa, some ea, some st, some en, some net, some lay, some len =>
      let arc : ArcData :=
        { center := ce, radius := ra, start_angle := sa, end_angle := ea
          start := st, endp := en, net_name := net, layer := lay, length := len }
      if arc.net_name ≠ "" ∧ arc.length > 1 / 1000000 then
        parseArcs rest (objs ++ [.arc arc], pads, pc)
      else parseArcs rest (objs, pads, pc)
    | _, _, _, _, _, _, _, _, _ => ((objs, pads, pc), false)

def parseVias : List ViaJson → LoadAcc → LoadAcc × Bool
  | [], acc => (acc, true)
  | v :: rest, (objs, pads, pc) =>
    match v.location, v.netName, v.fromLayer, v.toLayer with
    | some loc, some net, some fl, some tl =>
      let via : ViaData :=
        { location := loc, net_name := net, from_layer := fl, to_layer := tl
          hole_size := v.holeSize.getD 0 }
      if via.net_name ≠ "" then parseVias rest (objs ++ [.via via], pads, pc)
      else parseVias rest (objs, pads, pc)
    | _, _, _, _ => ((objs, pads, pc), false)

/-- Parse a decoded board into a fresh model, proceeding pads → tracks →
arcs → vias and aborting at the first missing required field. -/
def parseBoard (d : BoardData) : LoadAcc × Bool :=
  let r1 := parseComponents d.components ([], [], [])
  if !r1.2 then r1 else
  let r2 := parseTracks d.tracks r1.1
  if !r2.2 then r2 else
  let r3 := parseArcs d.arcs r2.1
  if !r3.2 then r3 else
  parseVias d.vias r3.1

/-- The three ways a `load_json_file` call can start: missing file,
undecodable JSON (both return early, before the model is cleared), or a
successfully decoded board. -/
inductive LoadInput where
  | fileNotFound
  | badJson
  | parsed (d : BoardData)

/-- `load_json_file`: returns the state after the call and whether the call
completed without raising (`false` both for the early prints-and-returns
and for an escaped `KeyError`). -/
def load_json_file (s : State) (i : LoadInput) : State × Bool :=
  match i with
  | .fileNotFound => (s, false)
  | .badJson => (s, false)
  | .parsed d =>
    let r := parseBoard d
    ({ objects := r.1.1, pads := r.1.2.1, pad_cache := r.1.2.2, connection_cache := [] }, r.2)

/-! ### Multi-net path analyzer -/

/-- First-occurrence-ordered distinct designators of the pad list
(the iteration order of the `connector_candidates` dict). -/
def designatorsInOrder (pads : List PadData) : List String :=
  pads.foldl (fun acc p => if acc.any (fun d => decide (d = p.designator)) then acc
                           else acc ++ [p.designator]) []

/-- First-occurrence-ordered distinct nets of one component's pads
(the iteration order of the `net_to_pads` dict). -/
def netsOfDesignator (pads : List PadData) (d : String) : List String :=
  pads.foldl
    (fun acc p =>
      if decide (p.designator = d) then
        if acc.any (fun n => decide (n = p.net_name)) then acc else acc ++ [p.net_name]
      else acc) []

def padsOfNet (pads : List PadData) (d net : String) : List PadData :=
  pads.filter fun p => decide (p.designator = d) && decide (p.net_name = net)

/-- `discover_jumper_points()`: for every component whose pads span more
than one net, every ordered pair of distinct nets, and every pad pair
within 100 units (strict), one two-element list of terminal identifiers.
Note each geometric pair is emitted twice, once per net ordering. -/
def discover_jumper_points (s : State) : List (List (String × String)) :=
  ((designatorsInOrder s.pads).filter
      (fun d => decide (1 < (netsOfDesignator s.pads d).length))).flatMap fun d =>
    let nets := netsOfDesignator s.pads d
    nets.flatMap fun n1 => nets.flatMap fun n2 =>
      if n1 ≠ n2 then
        (padsOfNet s.pads d n1).flatMap fun p1 =>
          (padsOfNet s.pads d n2).filterMap fun p2 =>
            if distSq p1.location p2.location < 10000 then
              some [(p1.designator, p1.pad_number), (p2.designator, p2.pad_number)]
            else none
      else []

/-- `G.nodes[node]['pad']`: the attribute written last wins, i.e. the last
pad in `self.pads` with that `(designator, pad_number)`. -/
def padAttrOf (pads : List PadData) (node : String × String) : Option PadData :=
  pads.reverse.find? fun p =>
    decide (p.designator = node.1) && decide (p.pad_number = node.2)

def dummyPad : PadData :=
  { designator := "", pad_number := "", net_name := "", location := (0, 0), layer := 1
    width := 0, height := 0, hole_size := 0, rotation := 0, shape := "Rectangular" }

structure MultiNetResult where
  total_length : ℚ
  net_segments : List (Option String × List (String × String) × ℚ)
  path : List (String × String)
deriving DecidableEq

/-- The segment-decomposition loop run on a found multi-net path. -/
structure SegAcc where
  total : ℚ
  segs : List (Option String × List (String × String) × ℚ)
  currentNet : Option String
  seg : List (String × String)
  segLen : ℚ

def segStep (pads : List PadData) (G : WGraph (String × String))
    (acc : SegAcc) (step : (String × String) × (String × String)) : SegAcc :=
  let n1 := step.1
  let n2 := step.2
  let pad1 := (padAttrOf pads n1).getD dummyPad   -- every path node carries a pad attribute
  let pad2 := (padAttrOf pads n2).getD dummyPad
  if pad1.net_name = pad2.net_name then
    let w := (G.edgeWeight id n1 n2).getD 0       -- consecutive path nodes share an edge
    let acc :=
      if acc.currentNet ≠ some pad1.net_name then
        { total := acc.total + w
          segs := if acc.seg ≠ [] then acc.segs ++ [(acc.currentNet, acc.seg, acc.segLen)]
                  else acc.segs
          currentNet := some pad1.net_name, seg := [n1], segLen := 0 }
      else { acc with total := acc.total + w }
    { acc with seg := acc.seg ++ [n2], segLen := acc.segLen + w }
  else
    { total := acc.total
      segs := if acc.seg ≠ [] then acc.segs ++ [(acc.currentNet, acc.seg, acc.segLen)]
              else acc.segs
      currentNet := some pad2.net_name, seg := [n2], segLen := 0 }

def decomposePath (pads : List PadData) (G : WGraph (String × String))
    (path : List (String × String)) : MultiNetResult :=
  let steps := path.zip path.tail
  let acc := steps.foldl (segStep pads G) ⟨0, [], none, [], 0⟩
  { total_length := acc.total
    net_segments := if acc.seg ≠ [] then acc.segs ++ [(acc.currentNet, acc.seg, acc.segLen)]
                    else acc.segs
    path := path }

/-- The same-net edge phase: for every ordered pad pair on one net, query
the cached path finder and add the edge (overwriting the weight when the
reverse pair re-adds it with the identical cached value). -/
def sameNetEdges (geo : GeoOracle) :
    List (PadData × PadData) → State → WGraph (String × String) →
    State × WGraph (String × String)
  | [], s, G => (s, G)
  | (p1, p2) :: rest, s, G =>
    if decide (objKey (.pad p1) ≠ objKey (.pad p2)) && decide (p1.net_name = p2.net_name) then
      let r := extract geo s p1.designator p1.pad_number p2.designator p2.pad_number
      match r.1 with
      | some len =>
        sameNetEdges geo rest r.2
          (G.addEdgeOW id (p1.designator, p1.pad_number) (p2.designator, p2.pad_number) len)
      | none => sameNetEdges geo rest r.2 G
    else sameNetEdges geo rest s G

/-- `analyze_multi_net_path(...)` with `jumper_points=None` (automatic
discovery).  The jumper phase executes
`for jp1, jp2 in zip(jumper_points[:-1], jumper_points[1:]): G.add_edge(jp1, jp2, weight=0)`;
each discovered element is itself a two-element *list*, which is unhashable,
so the first `add_edge` call raises `TypeError` (uncaught — the `except`
clause only handles `NetworkXNoPath`/`NodeNotFound`).  The zip is nonempty
exactly when at least two jumper entries were discovered; `Except.error ()`
models the escaped `TypeError`. -/
def analyze_multi_net_path_auto (geo : GeoOracle) (s : State)
    (start_comp start_pad end_comp end_pad : String) :
    Except Unit (Option MultiNetResult) × State :=
  let jumpers := discover_jumper_points s
  let G0 := (WGraph.empty : WGraph (String × String)).addNodes id
    (s.pads.map fun p => (p.designator, p.pad_number))
  let r := sameNetEdges geo (s.pads.flatMap fun p1 => s.pads.map fun p2 => (p1, p2)) s G0
  if 2 ≤ jumpers.length then (.error (), r.1)
  else
    match dijkstra id r.2 (start_comp, start_pad) (end_comp, end_pad) with
    | some path => (.ok (some (decomposePath r.1.pads r.2 path)), r.1)
    | none => (.ok none, r.1)

/-! ### Impedance calculator

Widths, heights and dielectric constants live in the rational data model;
the closed-form impedance formulas use `Real.sqrt`/`Real.log`.  Python
raises `ValueError`/`ZeroDivisionError` (from `math.sqrt` of a negative,
`math.log` of a non-positive, or division by zero) inside a `try` whose
handler returns the default 50.0 Ω; those conditions are reproduced as
explicit branches returning 50 here. -/

structure PCBLayer where
  name : String
  layer_number : ℤ
  height : ℚ
  material : String
  dielectric_constant : ℚ
deriving DecidableEq

/-- Insertion sort by `layer_number` (stable, like Python `sorted`). -/
def insertLayer (l : PCBLayer) : List PCBLayer → List PCBLayer
  | [] => [l]
  | x :: rest => if l.layer_number < x.layer_number then l :: x :: rest
                 else x :: insertLayer l rest

def sortLayers : List PCBLayer → List PCBLayer
  | [] => []
  | x :: rest => insertLayer x (sortLayers rest)

structure PCBStackup where
  layers : List PCBLayer
deriving DecidableEq

/-- `PCBStackup(layers)` sorts by layer number on construction. -/
def PCBStackup.ofLayers (ls : List PCBLayer) : PCBStackup := ⟨sortLayers ls⟩

/-- First layer with the given number (list scan). -/
def PCBStackup.get_layer_by_number (s : PCBStackup) (n : ℤ) : Option PCBLayer :=
  s.layers.find? fun l => decide (l.layer_number = n)

/-- `max(lo, min(hi, x))`, the clamping idiom of both impedance formulas. -/
noncomputable def clampR (lo hi x : ℝ) : ℝ := max lo (min hi x)

/-- The local `width` of `calculate_microstrip_impedance`: the `width`
attribute (10.0 when absent), floored at 0.1 when non-positive. -/
noncomputable def microWidth (track : TrackData) : ℝ :=
  if ((track.width.getD 10 : ℚ) : ℝ) ≤ 0 then 0.1 else ((track.width.getD 10 : ℚ) : ℝ)

/-- The local `height` of both impedance formulas: the layer height,
floored at 0.1 when non-positive. -/
noncomputable def layerHeight (layer : PCBLayer) : ℝ :=
  if ((layer.height : ℚ) : ℝ) ≤ 0 then 0.1 else ((layer.height : ℚ) : ℝ)

/-- The local `width` of `calculate_stripline_impedance` (not floored). -/
noncomputable def stripWidth (track : TrackData) : ℝ := ((track.width.getD 10 : ℚ) : ℝ)

/-- `calculate_microstrip_impedance(track, stackup)`:
`Z = (80 / sqrt(er)) * ln(1 + 5 * h / w)`, clamped to [20, 120];
non-positive width and height are floored at 0.1; a missing layer or a
math-domain error (`er < 0` makes `math.sqrt` raise `ValueError`, `er = 0`
makes `80 / sqrt(er)` raise `ZeroDivisionError`; both are caught) yields
the 50 Ω default. -/
noncomputable def calculate_microstrip_impedance (track : TrackData)
    (stackup : PCBStackup) : ℝ :=
  match stackup.get_layer_by_number track.layer with
  | none => 50
  | some layer =>
    if ((layer.dielectric_constant : ℚ) : ℝ) ≤ 0 then 50
    else
      clampR 20 120 ((80 / Real.sqrt ((layer.dielectric_constant : ℚ) : ℝ)) *
        Real.log (1 + 5 * layerHeight layer / microWidth track))

/-- `calculate_stripline_impedance(track, stackup)`:
`Z = (60 / sqrt(er)) * ln(1.9 * (2h / (0.8w + 1.4)))`, with a fallback
`60 * ln(4h / w) / sqrt(er)` when the first value is non-positive, clamped
to [25, 120]; width is *not* floored here.  Each math-domain error of the
Python `try` body (negative `er`, zero denominator, non-positive logarithm
argument in either formula, zero width in the fallback) is caught and
yields the 50 Ω default; those conditions appear as explicit branches. -/
noncomputable def calculate_stripline_impedance (track : TrackData)
    (stackup : PCBStackup) : ℝ :=
  match stackup.get_layer_by_number track.layer with
  | none => 50
  | some layer =>
    if ((layer.dielectric_constant : ℚ) : ℝ) ≤ 0 then 50
    else if 0.8 * stripWidth track + 1.4 = 0 then 50
    else if 1.9 * (2 * layerHeight layer / (0.8 * stripWidth track + 1.4)) ≤ 0 then 50
    else if (60 / Real.sqrt ((layer.dielectric_constant : ℚ) : ℝ)) *
        Real.log (1.9 * (2 * layerHeight layer / (0.8 * stripWidth track + 1.4))) ≤ 0 then
      if stripWidth track = 0 then 50
      else if 4 * layerHeight layer / stripWidth track ≤ 0 then 50
      else
        clampR 25 120 (60 * Real.log (4 * layerHeight layer / stripWidth track) /
          Real.sqrt ((layer.dielectric_constant : ℚ) : ℝ))
    else
      clampR 25 120 ((60 / Real.sqrt ((layer.dielectric_constant : ℚ) : ℝ)) *
        Real.log (1.9 * (2 * layerHeight layer / (0.8 * stripWidth track + 1.4))))

/-- `{track with width := some w}` — how the repository's tests prepare a
track of a given width before calling the impedance calculators. -/
def setWidth (t : TrackData) (w : ℚ) : TrackData := { t with width := some w }

/-- The primary (IPC-2141) stripline formula evaluates to a positive value:
the condition under which `calculate_stripline_impedance` stays on its main
branch rather than falling back to the simplified formula. -/
noncomputable def striplineMainPositive (track : TrackData) (stackup : PCBStackup) : Prop :=
  match stackup.get_layer_by_number track.layer with
  | none => False
  | some layer =>
    0 < ((layer.dielectric_constant : ℚ) : ℝ) ∧
    0 < (60 / Real.sqrt ((layer.dielectric_constant : ℚ) : ℝ)) *
      Real.log (1.9 * (2 * layerHeight layer / (0.8 * stripWidth track + 1.4)))

/-! ### Concrete fixture boards

`geoF` is the geometry oracle for all fixture boards below: on each of
them, every object pair that reaches check 2 (i.e. fails the endpoint
proximity check) is at least 49 mils apart, while the buffers are only
`tolerance * 0.1 = 0.2` mils, so the buffered shapes are disjoint and
shapely's intersection test returns false. -/

def geoF : GeoOracle := fun _ _ _ => false

def mkPadJ (num net : String) (x y : ℚ) : PadJson :=
  { padNumber := some num, netName := some net, location := some (x, y)
    layer := none, width := none, height := none, holeSize := none
    rotation := none, shape := none }

def mkComp (d : String) (pads : List PadJson) : ComponentJson :=
  { designator := some d, layer := none, pads := pads }

def mkTrackJ (x1 y1 x2 y2 len : ℚ) (net : String) : TrackJson :=
  { start := some (x1, y1), endp := some (x2, y2), netName := some net
    layer := some 1, length := some len }

/-- Fixture 1 (the spec's synthetic two-pad fixture): two pads 100 mils
apart and one 150-mil track whose ends are 1 mil off the pad centres —
within the 2-mil tolerance but rounding to different grid points, so the
exact-endpoint strategy fails and the tolerance strategy succeeds. -/
def board1 : BoardData :=
  { components := [mkComp "U1" [mkPadJ "1" "N1" 0 0], mkComp "R1" [mkPadJ "1" "N1" 100 0]]
    tracks := [mkTrackJ 0 1 100 1 150 "N1"], arcs := [], vias := [] }

def sBoard1 : State := (load_json_file emptyState (.parsed board1)).1

def padU1 : PadData :=
  { designator := "U1", pad_number := "1", net_name := "N1", location := (0, 0), layer := 1
    width := 0, height := 0, hole_size := 0, rotation := 0, shape := "Rectangular" }

def padR1 : PadData := { padU1 with designator := "R1", location := (100, 0) }

def trackB1 : TrackData :=
  { start := (0, 1), endp := (100, 1), net_name := "N1", layer := 1, length := 150
    width := none }

/-- Fixture 2: two parallel routes between the pads.  Route 1 (tracks
`t2a`, `t2b`, 50 mils each) meets the pad centres exactly, so it is the
only route in the exact-endpoint graph.  Route 2 (track `t2c`, declared
length 90 mils) is 1 mil off each pad centre, so it only exists in the
tolerance graph — where its two near-zero pad edges make it the unique
weight-shortest route. -/
def board2 : BoardData :=
  { components := [mkComp "A1" [mkPadJ "1" "N1" 0 0], mkComp "B1" [mkPadJ "1" "N1" 100 0]]
    tracks := [mkTrackJ 0 0 50 0 50 "N1", mkTrackJ 50 0 100 0 50 "N1",
               mkTrackJ 0 1 100 1 90 "N1"]
    arcs := [], vias := [] }

def sBoard2 : State := (load_json_file emptyState (.parsed board2)).1

/-- The state of fixture 2 after the first `trace_length` query. -/
def sBoard2After : State := (extract geoF sBoard2 "A1" "1" "B1" "1").2

/-- Fixture for C1: two pads on different nets. -/
def boardNets : BoardData :=
  { components := [mkComp "U1" [mkPadJ "1" "GND" 0 0], mkComp "R1" [mkPadJ "1" "VCC" 50 0]]
    tracks := [], arcs := [], vias := [] }

def sBoardNets : State := (load_json_file emptyState (.parsed boardNets)).1

/-- Fixture for C8: one component whose two pads sit on different nets
50 mils apart — a discovered jumper pair. -/
def boardJ : BoardData :=
  { components := [mkComp "J1" [mkPadJ "1" "A" 0 0, mkPadJ "2" "B" 50 0]]
    tracks := [], arcs := [], vias := [] }

def sBoardJ : State := (load_json_file emptyState (.parsed boardJ)).1

/-- Fixture for C5: a well-formed prior board, and a board whose second
track record lacks `netName` so that its load dies half-way through the
tracks section. -/
def boardPrior : BoardData :=
  { components := [mkComp "U9" [mkPadJ "1" "OLD" 0 0]], tracks := [], arcs := [], vias := [] }

def sPrior : State := (load_json_file emptyState (.parsed boardPrior)).1

def badTrackJ : TrackJson :=
  { start := some (200, 0), endp := some (300, 0), netName := none
    layer := some 1, length := some 100 }

def boardBad : BoardData :=
  { components := [mkComp "U1" [mkPadJ "1" "N1" 0 0], mkComp "R1" [mkPadJ "1" "N1" 100 0]]
    tracks := [mkTrackJ 0 0 100 0 100 "N1", badTrackJ, mkTrackJ 300 0 400 0 100 "N1"]
    arcs := [], vias := [] }

/-- Fixture objects for C7: two tracks of different lengths sharing an
endpoint, plus the two terminal pads. -/
def t7a : TrackData :=
  { start := (0, 0), endp := (100, 0), net_name := "N", layer := 1, length := 100
    width := none }

def t7b : TrackData :=
  { start := (100, 0), endp := (300, 0), net_name := "N", layer := 1, length := 200
    width := none }

def pad7a : PadData :=
  { designator := "U1", pad_number := "1", net_name := "N", location := (0, 0), layer := 1
    width := 0, height := 0, hole_size := 0, rotation := 0, shape := "Rectangular" }

def pad7b : PadData := { pad7a with designator := "U2", location := (300, 0) }

def objs7 : List NetObject := [.pad pad7a, .pad pad7b, .track t7a, .track t7b]

/-- Fixture tracks and stackups for the impedance claims. -/
def t9narrow : TrackData :=
  { start := (0, 0), endp := (100, 0), net_name := "N", layer := 1, length := 100
    width := some 1 }

def t9wide : TrackData := { t9narrow with width := some 2 }

/-- A tall stackup layer under which both fixture widths drive the raw
microstrip formula above the 120 Ω clamp. -/
def stack9 : PCBStackup :=
  PCBStackup.ofLayers [⟨"Top", 1, 100, "FR4", 4⟩]

/-- A moderate stackup layer for the monotonicity witness. -/
def stack9w : PCBStackup :=
  PCBStackup.ofLayers [⟨"Top", 1, 10, "FR4", 4⟩]

deriving instance DecidableEq for Except

def padGnd : PadData :=
  { designator := "U1", pad_number := "1", net_name := "GND", location := (0, 0), layer := 1
    width := 0, height := 0, hole_size := 0, rotation := 0, shape := "Rectangular" }

def padVcc : PadData := { padGnd with designator := "R1", net_name := "VCC", location := (50, 0) }

/-! ### Reachable extractor states

A `PCBTraceExtractor` starts empty; its state then changes only through
`load_json_file` and through the queries, each of which mutates the caches
only via `extract_traces_between_pads`. -/

inductive Reachable (geo : GeoOracle) : State → Prop where
  | init : Reachable geo emptyState
  | load (s : State) (i : LoadInput) :
      Reachable geo s → Reachable geo (load_json_file s i).1
  | query (s : State) (c1 p1 c2 p2 : String) :
      Reachable geo s → Reachable geo (extract geo s c1 p1 c2 p2).2
  | detail (s : State) (c1 p1 c2 p2 : String) :
      Reachable geo s → Reachable geo (get_trace_path geo s c1 p1 c2 p2).2

/-- The cache invariant behind claim C1: whenever two terminal identifiers
resolve to pads on different nets, the connection cache cannot hold a
numeric result for their unordered key. -/
def DiffNetsNeverCached (s : State) : Prop :=
  ∀ k1 k2 : String × String, ∀ pa pb : PadData,
    resolveVal s k1.1 k1.2 = some pa → resolveVal s k2.1 k2.2 = some pb →
    pa.net_name ≠ pb.net_name →
    ∀ L : ℚ, alookup s.connection_cache (sortKey k1 k2) ≠ some (some L)

/-! ## Lemmas about the unordered cache key and the caches -/

theorem charListLt_both_false {a b : List Char}
    (h1 : charListLt a b = false) (h2 : charListLt b a = false) : a = b := by
  induction a generalizing b with
  | nil => cases b with
    | nil => rfl
    | cons x xs => simp [charListLt] at h1
  | cons x xs ih =>
    cases b with
    | nil => simp [charListLt] at h2
    | cons y ys =>
      rcases Nat.lt_trichotomy x.toNat y.toNat with h | h | h
      · simp only [charListLt] at h1
        rw [if_pos h] at h1
        exact absurd h1 (by simp)
      · have hxy : x = y := Char.eq_of_val_eq (UInt32.toNat.inj h)
        subst hxy
        simp only [charListLt, if_neg (lt_irrefl _)] at h1 h2
        rw [ih h1 h2]
      · simp only [charListLt] at h2
        rw [if_neg (Nat.lt_asymm h), if_pos h] at h2
        exact absurd h2 (by simp)

theorem strLt_both_false {a b : String} (h1 : strLt a b = false)
    (h2 : strLt b a = false) : a = b := by
  have hd : a.data = b.data := charListLt_both_false h1 h2
  cases a; cases b; exact congrArg String.mk hd

theorem charListLt_irrefl (a : List Char) : charListLt a a = false := by
  induction a with
  | nil => rfl
  | cons x xs ih =>
    simp only [charListLt, if_neg (lt_irrefl _)]
    exact ih

theorem strLt_irrefl (a : String) : strLt a a = false := charListLt_irrefl a.data

theorem charListLt_asymm {a b : List Char} (h : charListLt a b = true) :
    charListLt b a = false := by
  induction a generalizing b with
  | nil => cases b with
    | nil => simp [charListLt] at h
    | cons y ys => simp [charListLt]
  | cons x xs ih =>
    cases b with
    | nil => simp [charListLt] at h
    | cons y ys =>
      rcases Nat.lt_trichotomy x.toNat y.toNat with hlt | heq | hgt
      · simp only [charListLt]
        rw [if_neg (Nat.lt_asymm hlt), if_pos hlt]
      · have hxy : x = y := Char.eq_of_val_eq (UInt32.toNat.inj heq)
        subst hxy
        simp only [charListLt, if_neg (lt_irrefl _)] at h ⊢
        exact ih h
      · simp only [charListLt] at h
        rw [if_neg (Nat.lt_asymm hgt), if_pos hgt] at h
        exact absurd h (by simp)

theorem strLt_asymm {a b : String} (h : strLt a b = true) : strLt b a = false :=
  charListLt_asymm h

theorem pairLe_antisymm (a b : String × String)
    (h1 : pairLe a b = true) (h2 : pairLe b a = true) : a = b := by
  unfold pairLe strLe at h1 h2
  simp only [Bool.or_eq_true, Bool.and_eq_true, decide_eq_true_eq] at h1 h2
  rcases h1 with h1 | ⟨h1e, h1le⟩
  · rcases h2 with h2 | ⟨h2e, _⟩
    · exact absurd h2 (by rw [strLt_asymm h1]; simp)
    · exact absurd h1 (by rw [h2e, strLt_irrefl]; simp)
  · rcases h2 with h2 | ⟨_, h2le⟩
    · exact absurd h2 (by rw [h1e, strLt_irrefl]; simp)
    · rcases h1le with h1lt | h1eq
      · rcases h2le with h2lt | h2eq
        · exact absurd h2lt (by rw [strLt_asymm h1lt]; simp)
        · exact Prod.ext h1e h2eq.symm
      · exact Prod.ext h1e h1eq

theorem pairLe_total (a b : String × String) :
    pairLe a b = true ∨ pairLe b a = true := by
  unfold pairLe strLe
  simp only [Bool.or_eq_true, Bool.and_eq_true, decide_eq_true_eq]
  cases hab : strLt a.1 b.1 with
  | true => exact Or.inl (Or.inl rfl)
  | false =>
    cases hba : strLt b.1 a.1 with
    | true => exact Or.inr (Or.inl rfl)
    | false =>
      have h1 : a.1 = b.1 := strLt_both_false hab hba
      cases hab2 : strLt a.2 b.2 with
      | true => exact Or.inl (Or.inr ⟨h1, Or.inl rfl⟩)
      | false =>
        cases hba2 : strLt b.2 a.2 with
        | true => exact Or.inr (Or.inr ⟨h1.symm, Or.inl rfl⟩)
        | false =>
          exact Or.inl (Or.inr ⟨h1, Or.inr (strLt_both_false hab2 hba2)⟩)

theorem sortKey_comm (a b : String × String) : sortKey a b = sortKey b a := by
  unfold sortKey
  by_cases h1 : pairLe a b = true <;> by_cases h2 : pairLe b a = true
  · have hab := pairLe_antisymm a b h1 h2
    simp [h1, h2, hab]
  · simp [h1, h2]
  · simp [h1, h2]
  · rcases pairLe_total a b with h | h
    · exact absurd h h1
    · exact absurd h h2

theorem alookup_cons_self {κ β : Type} [DecidableEq κ] (k : κ) (v : β)
    (l : List (κ × β)) : alookup ((k, v) :: l) k = some v := by
  simp [alookup]

/-! ## Basic lemmas about `resolvePad` and `extract` -/

theorem resolvePad_cc (s : State) (c p : String) :
    ((resolvePad s c p).2).connection_cache = s.connection_cache := by
  unfold resolvePad
  cases alookup s.pad_cache (c, p) with
  | some pad => rfl
  | none =>
    cases s.pads.find? (fun q => decide (q.designator = c) && decide (q.pad_number = p)) with
    | some pad => rfl
    | none => rfl

theorem resolvePad_objects (s : State) (c p : String) :
    ((resolvePad s c p).2).objects = s.objects := by
  unfold resolvePad
  cases alookup s.pad_cache (c, p) with
  | some pad => rfl
  | none =>
    cases s.pads.find? (fun q => decide (q.designator = c) && decide (q.pad_number = p)) with
    | some pad => rfl
    | none => rfl

theorem resolvePad_pads (s : State) (c p : String) :
    ((resolvePad s c p).2).pads = s.pads := by
  unfold resolvePad
  cases alookup s.pad_cache (c, p) with
  | some pad => rfl
  | none =>
    cases s.pads.find? (fun q => decide (q.designator = c) && decide (q.pad_number = p)) with
    | some pad => rfl
    | none => rfl

theorem extractMiss_cc (geo : GeoOracle) (s : State) (c1 p1 c2 p2 : String)
    (key : (String × String) × (String × String)) :
    ((extractMiss geo s c1 p1 c2 p2 key).2).connection_cache
      = (key, (extractMiss geo s c1 p1 c2 p2 key).1) :: s.connection_cache := by
  unfold extractMiss
  simp [storeCC, resolvePad_cc]

/-- A cache hit returns the stored value and leaves the state untouched. -/
theorem extract_hit (geo : GeoOracle) (s : State) (c1 p1 c2 p2 : String) (v : Option ℚ)
    (h : alookup s.connection_cache (sortKey (c1, p1) (c2, p2)) = some v) :
    extract geo s c1 p1 c2 p2 = (v, s) := by
  unfold extract
  rw [h]

/-- After any `extract_traces_between_pads` call the connection cache holds
exactly the scalar that the call returned, under the unordered key. -/
theorem extract_cache_lookup (geo : GeoOracle) (s : State) (c1 p1 c2 p2 : String) :
    alookup ((extract geo s c1 p1 c2 p2).2).connection_cache (sortKey (c1, p1) (c2, p2))
      = some ((extract geo s c1 p1 c2 p2).1) := by
  unfold extract
  cases h : alookup s.connection_cache (sortKey (c1, p1) (c2, p2)) with
  | some v => simp [h]
  | none =>
    rw [extractMiss_cc]
    exact alookup_cons_self _ _ _

/-- `get_trace_path` mutates the state only through its initial
`extract_traces_between_pads` call; it records no path or strategy data. -/
theorem get_trace_path_state (geo : GeoOracle) (s : State) (c1 p1 c2 p2 : String) :
    (get_trace_path geo s c1 p1 c2 p2).2 = (extract geo s c1 p1 c2 p2).2 := by
  unfold get_trace_path
  rcases hx : (extract geo s c1 p1 c2 p2).1 with _ | L
  · simp [hx]
  · simp only [hx]
    rcases h1 : alookup (extract geo s c1 p1 c2 p2).2.pad_cache (c1, p1) with _ | pa <;>
      rcases h2 : alookup (extract geo s c1 p1 c2 p2).2.pad_cache (c2, p2) with _ | pb <;>
      simp only [h1, h2]
    rcases dijkstra objKey
        (build_bidirectional_graph geo
          (netObjsFor (extract geo s c1 p1 c2 p2).2.objects pa pb) pa pb)
        (.pad pa) (.pad pb) with _ | path <;> simp

/-- C3: for a fixed loaded board (indeed for any extractor state), two
consecutive `trace_length` calls with identical arguments return the same
value, including `None`: the first call stores its result under the
unordered terminal key and the second call is a cache hit. -/
theorem trace_length_deterministic (geo : GeoOracle) (s : State) (c1 p1 c2 p2 : String) :
    (extract geo ((extract geo s c1 p1 c2 p2).2) c1 p1 c2 p2).1
      = (extract geo s c1 p1 c2 p2).1 := by
  rw [extract_hit geo _ c1 p1 c2 p2 _ (extract_cache_lookup geo s c1 p1 c2 p2)]

/-- C10: `trace_length` is symmetric in its two terminals: after
`trace_length(c1,p1,c2,p2)`, the swapped call `trace_length(c2,p2,c1,p1)`
returns the same value (numeric or `None`), because the result cache is
keyed by the unordered (sorted) pair of terminal identifiers. -/
theorem trace_length_symmetric (geo : GeoOracle) (s : State) (c1 p1 c2 p2 : String) :
    (extract geo ((extract geo s c1 p1 c2 p2).2) c2 p2 c1 p1).1
      = (extract geo s c1 p1 c2 p2).1 := by
  have h := extract_cache_lookup geo s c1 p1 c2 p2
  rw [extract_hit geo _ c2 p2 c1 p1 _ (by rw [sortKey_comm]; exact h)]

/-- C6 (amended): after a `trace_length` query, only the scalar result is
cached, keyed by the unordered terminal pair; no path node sequence or
strategy identity is retained — a subsequent `get_trace_path` call leaves
the state exactly as `extract_traces_between_pads` left it and rebuilds a
path from scratch (with the tolerance-graph strategy only). -/
theorem trace_length_caches_scalar_only (geo : GeoOracle) (s : State)
    (c1 p1 c2 p2 : String) :
    alookup ((extract geo s c1 p1 c2 p2).2).connection_cache (sortKey (c1, p1) (c2, p2))
        = some ((extract geo s c1 p1 c2 p2).1) ∧
    (get_trace_path geo s c1 p1 c2 p2).2 = (extract geo s c1 p1 c2 p2).2 :=
  ⟨extract_cache_lookup geo s c1 p1 c2 p2, get_trace_path_state geo s c1 p1 c2 p2⟩

set_option maxRecDepth 200000 in
/-- C6 (counterexample): on `board2` the winning strategy is the
exact-endpoint graph, whose path has Track lengths summing to 2.54 mm (the
value `trace_length` returns); the subsequent detail query does not return
that winning path — its Track elements sum to 2.286 mm — so the detail
cannot have been served from a cache of the winning path. -/
theorem path_detail_not_from_winning_path_example :
    (extract geoF sBoard2 "A1" "1" "B1" "1").1 = some (127 / 50) ∧
    ((get_trace_path geoF sBoard2After "A1" "1" "B1" "1").1).elementsLengthMM
        = some (1143 / 500) ∧
    (some (127 / 50) : Option ℚ) ≠ some (1143 / 500) := by
  refine ⟨by decide, by decide, by decide⟩

/-! ## The different-nets invariant (claim C1) -/

theorem sortKey_or (a b : String × String) :
    sortKey a b = (a, b) ∨ sortKey a b = (b, a) := by
  unfold sortKey
  by_cases h : pairLe a b = true <;> simp [h]

theorem sortKey_eq_cases {a b c d : String × String}
    (h : sortKey a b = sortKey c d) : (a = c ∧ b = d) ∨ (a = d ∧ b = c) := by
  rcases sortKey_or a b with h1 | h1 <;> rcases sortKey_or c d with h2 | h2 <;>
    rw [h1, h2] at h <;> rw [Prod.mk.injEq] at h
  · exact Or.inl h
  · exact Or.inr h
  · exact Or.inr ⟨h.2, h.1⟩
  · exact Or.inl ⟨h.2, h.1⟩

theorem resolveVal_resolvePad (s : State) (c p c' p' : String) :
    resolveVal ((resolvePad s c p).2) c' p' = resolveVal s c' p' := by
  unfold resolveVal resolvePad
  cases h1 : alookup s.pad_cache (c, p) with
  | some pad => rfl
  | none =>
    cases h2 : s.pads.find?
        (fun q => decide (q.designator = c) && decide (q.pad_number = p)) with
    | none => rfl
    | some pad =>
      simp only [alookup]
      by_cases hk : ((c : String), (p : String)) = (c', p')
      · rw [if_pos hk]
        rw [show c' = c from (Prod.mk.injEq .. ▸ hk).1.symm,
            show p' = p from (Prod.mk.injEq .. ▸ hk).2.symm]
        rw [h1, h2]
      · rw [if_neg hk]
        cases alookup s.pad_cache (c', p') with
        | some q => rfl
        | none =>
          cases s.pads.find?
              (fun q => decide (q.designator = c') && decide (q.pad_number = p')) with
          | some q => rfl
          | none => rfl

theorem resolveVal_storeCC (s : State) (key : (String × String) × (String × String))
    (v : Option ℚ) (c p : String) :
    resolveVal (storeCC s key v) c p = resolveVal s c p := by
  unfold resolveVal resolvePad storeCC
  cases alookup s.pad_cache (c, p) with
  | some pad => rfl
  | none =>
    cases s.pads.find?
        (fun q => decide (q.designator = c) && decide (q.pad_number = p)) with
    | some pad => rfl
    | none => rfl

theorem extract_resolveVal (geo : GeoOracle) (s : State) (c1 p1 c2 p2 c p : String) :
    resolveVal ((extract geo s c1 p1 c2 p2).2) c p = resolveVal s c p := by
  unfold extract
  cases alookup s.connection_cache (sortKey (c1, p1) (c2, p2)) with
  | some v => rfl
  | none =>
    show resolveVal (storeCC _ _ _) c p = _
    rw [resolveVal_storeCC, resolveVal_resolvePad, resolveVal_resolvePad]

/-- When both terminals resolve to pads on different nets, a fresh (uncached)
run of the extractor returns `None` — the early different-nets return. -/
theorem extractFresh_none_of_diff_nets (geo : GeoOracle) (s : State)
    (c1 p1 c2 p2 : String) (pa pb : PadData)
    (ha : resolveVal s c1 p1 = some pa) (hb : resolveVal s c2 p2 = some pb)
    (hnet : pa.net_name ≠ pb.net_name) :
    extractFresh geo s c1 p1 c2 p2 = none := by
  have hb' : (resolvePad (resolvePad s c1 p1).2 c2 p2).1 = some pb := by
    show resolveVal ((resolvePad s c1 p1).2) c2 p2 = some pb
    rw [resolveVal_resolvePad]; exact hb
  unfold extractFresh
  rw [show (resolvePad s c1 p1).1 = some pa from ha, hb']
  simp [hnet]

theorem diffNets_load (s : State) (i : LoadInput) (h : DiffNetsNeverCached s) :
    DiffNetsNeverCached (load_json_file s i).1 := by
  cases i with
  | fileNotFound => exact h
  | badJson => exact h
  | parsed d =>
    intro k1 k2 pa pb _ _ _ L
    show alookup ([] : List _) _ ≠ _
    simp [alookup]

theorem diffNets_extract (geo : GeoOracle) (s : State) (c1 p1 c2 p2 : String)
    (h : DiffNetsNeverCached s) :
    DiffNetsNeverCached (extract geo s c1 p1 c2 p2).2 := by
  unfold extract
  cases hcc : alookup s.connection_cache (sortKey (c1, p1) (c2, p2)) with
  | some v => exact h
  | none =>
    intro k1 k2 pa pb h1 h2 hnet L hsome
    have hstab : ∀ c p, resolveVal ((extractMiss geo s c1 p1 c2 p2
        (sortKey (c1, p1) (c2, p2))).2) c p = resolveVal s c p := by
      intro c p
      show resolveVal (storeCC _ _ _) c p = _
      rw [resolveVal_storeCC, resolveVal_resolvePad, resolveVal_resolvePad]
    rw [hstab] at h1 h2
    rw [extractMiss_cc] at hsome
    by_cases hk : sortKey (c1, p1) (c2, p2) = sortKey k1 k2
    · simp only [alookup, if_pos hk] at hsome
      have hfresh : (extractMiss geo s c1 p1 c2 p2 (sortKey (c1, p1) (c2, p2))).1
          = extractFresh geo s c1 p1 c2 p2 := rfl
      rw [hfresh] at hsome
      rcases sortKey_eq_cases hk with ⟨hka, hkb⟩ | ⟨hka, hkb⟩
      · rw [extractFresh_none_of_diff_nets geo s c1 p1 c2 p2 pa pb
          (by rw [← hka] at h1; exact h1) (by rw [← hkb] at h2; exact h2) hnet] at hsome
        simp at hsome
      · rw [extractFresh_none_of_diff_nets geo s c1 p1 c2 p2 pb pa
          (by rw [← hka] at h2; exact h2) (by rw [← hkb] at h1; exact h1)
          (fun e => hnet e.symm)] at hsome
        simp at hsome
    · simp only [alookup, if_neg hk] at hsome
      exact h k1 k2 pa pb h1 h2 hnet L hsome

theorem reachable_diffNets {geo : GeoOracle} {s : State} (h : Reachable geo s) :
    DiffNetsNeverCached s := by
  induction h with
  | init =>
    intro k1 k2 pa pb _ _ _ L
    show alookup ([] : List _) _ ≠ _
    simp [alookup]
  | load s i _ ih => exact diffNets_load s i ih
  | query s c1 p1 c2 p2 _ ih => exact diffNets_extract _ s c1 p1 c2 p2 ih
  | detail s c1 p1 c2 p2 _ ih =>
    rw [get_trace_path_state]
    exact diffNets_extract _ s c1 p1 c2 p2 ih

/-- C1: on any reachable extractor state (a loaded board followed by any
sequence of queries), whenever both terminal identifiers resolve to pads
whose `net_name` fields differ, `trace_length` returns `None` — whether the
call misses the cache (the early different-nets return) or hits a cached
entry (which the invariant shows can only be the cached `None`). -/
theorem different_nets_gives_none (geo : GeoOracle) (s : State)
    (c1 p1 c2 p2 : String) (pa pb : PadData) (hr : Reachable geo s)
    (ha : resolveVal s c1 p1 = some pa) (hb : resolveVal s c2 p2 = some pb)
    (hnet : pa.net_name ≠ pb.net_name) :
    (extract geo s c1 p1 c2 p2).1 = none := by
  have hinv := reachable_diffNets hr
  unfold extract
  cases hcc : alookup s.connection_cache (sortKey (c1, p1) (c2, p2)) with
  | some v =>
    cases hv : v with
    | none => rfl
    | some L =>
      exact absurd (hv ▸ hcc)
        (hinv (c1, p1) (c2, p2) pa pb ha hb hnet L)
  | none =>
    show extractFresh geo s c1 p1 c2 p2 = none
    exact extractFresh_none_of_diff_nets geo s c1 p1 c2 p2 pa pb ha hb hnet

/-- Witness for C1 at the concrete two-net fixture board. -/
theorem different_nets_gives_none_witness :
    resolveVal sBoardNets "U1" "1" = some padGnd ∧
    resolveVal sBoardNets "R1" "1" = some padVcc ∧
    padGnd.net_name ≠ padVcc.net_name ∧
    (extract geoF sBoardNets "U1" "1" "R1" "1").1 = none :=
  ⟨by decide, by decide, by decide,
   different_nets_gives_none geoF sBoardNets "U1" "1" "R1" "1" padGnd padVcc
     (Reachable.load emptyState (.parsed boardNets) Reachable.init)
     (by decide) (by decide) (by decide)⟩

/-! ## Round-trip consistency when the tolerance strategy wins (claim C2) -/

theorem elemLengthSum_pathElements (l : List NetObject) :
    elemLengthSumMils (pathElements l)
      = ((l.filter (fun o => o.isLinear)).map (fun o => o.length)).sum := by
  induction l with
  | nil => rfl
  | cons o rest ih =>
    cases o with
    | pad q => simpa [pathElements, NetObject.isLinear, List.filter] using ih
    | track t =>
      simp [pathElements, elemLengthSumMils, NetObject.isLinear, List.filter, ih,
        NetObject.length]
    | arc a =>
      simp [pathElements, elemLengthSumMils, NetObject.isLinear, List.filter, ih,
        NetObject.length]
    | via v => simpa [pathElements, elemLengthSumMils, NetObject.isLinear, List.filter] using ih

theorem resolvePad_cache_lookup (s : State) (c p : String) (pad : PadData)
    (h : (resolvePad s c p).1 = some pad) :
    alookup ((resolvePad s c p).2).pad_cache (c, p) = some pad := by
  unfold resolvePad at h ⊢
  cases h1 : alookup s.pad_cache (c, p) with
  | some q => rw [h1] at h; simp at h; rw [← h]; exact h1
  | none =>
    rw [h1] at h
    cases h2 : s.pads.find?
        (fun q => decide (q.designator = c) && decide (q.pad_number = p)) with
    | none => rw [h2] at h; simp at h
    | some q =>
      rw [h2] at h
      simp at h
      show alookup (((c, p), q) :: s.pad_cache) (c, p) = some pad
      rw [alookup_cons_self, h]

theorem resolvePad_cache_mono (s : State) (c p c' p' : String) (pad : PadData)
    (h : alookup s.pad_cache (c', p') = some pad) :
    alookup ((resolvePad s c p).2).pad_cache (c', p') = some pad := by
  unfold resolvePad
  cases h1 : alookup s.pad_cache (c, p) with
  | some q => exact h
  | none =>
    cases h2 : s.pads.find?
        (fun q => decide (q.designator = c) && decide (q.pad_number = p)) with
    | none => exact h
    | some q =>
      show alookup (((c, p), q) :: s.pad_cache) (c', p') = some pad
      have hne : ((c : String), (p : String)) ≠ (c', p') := by
        intro he
        rw [show c' = c from (Prod.mk.injEq .. ▸ he).1.symm,
            show p' = p from (Prod.mk.injEq .. ▸ he).2.symm] at h
        rw [h1] at h
        exact Option.noConfusion h
      simp only [alookup, if_neg hne]
      exact h

/-- C2 (amended): when the exact-endpoint strategy finds no path and the
tolerance strategy finds path `p`, `trace_length` returns exactly
`calculate_path_length p`, and a subsequent `trace_path` call for the same
pair returns elements whose Track/Arc lengths (converted to mm) sum to
exactly that same value: the detail query deterministically rebuilds the
same tolerance graph and finds the same path.  (When the exact-endpoint
strategy wins instead, the two can disagree — see the counterexample.) -/
theorem trace_path_sum_matches_when_tolerance_graph_wins
    (geo : GeoOracle) (s : State) (c1 p1 c2 p2 : String) (pa pb : PadData)
    (p : List NetObject)
    (hk : alookup s.connection_cache (sortKey (c1, p1) (c2, p2)) = none)
    (ha : resolveVal s c1 p1 = some pa)
    (hb : resolveVal s c2 p2 = some pb)
    (hnet : pa.net_name = pb.net_name)
    (hA : dijkstra objKey (build_accurate_graph (netObjsFor s.objects pa pb) pa pb)
        (.pad pa) (.pad pb) = none)
    (hB : dijkstra objKey
        (build_bidirectional_graph geo (netObjsFor s.objects pa pb) pa pb)
        (.pad pa) (.pad pb) = some p) :
    (extract geo s c1 p1 c2 p2).1 = some (calculate_path_length p) ∧
    (get_trace_path geo (extract geo s c1 p1 c2 p2).2 c1 p1 c2 p2).1.elementsLengthMM
      = some (calculate_path_length p) := by
  have hb1 : (resolvePad (resolvePad s c1 p1).2 c2 p2).1 = some pb := by
    show resolveVal ((resolvePad s c1 p1).2) c2 p2 = some pb
    rw [resolveVal_resolvePad]; exact hb
  have hobj2 : ((resolvePad (resolvePad s c1 p1).2 c2 p2).2).objects = s.objects := by
    rw [resolvePad_objects, resolvePad_objects]
  have hfresh : extractFresh geo s c1 p1 c2 p2 = some (calculate_path_length p) := by
    unfold extractFresh
    rw [show (resolvePad s c1 p1).1 = some pa from ha, hb1]
    simp only [if_pos hnet, hobj2]
    unfold strategyResult
    rw [hA, hB]
  have hpart1 : (extract geo s c1 p1 c2 p2).1 = some (calculate_path_length p) := by
    unfold extract
    rw [hk]
    exact hfresh
  refine ⟨hpart1, ?_⟩
  -- the state after the query
  have hstate : (extract geo s c1 p1 c2 p2).2
      = (extractMiss geo s c1 p1 c2 p2 (sortKey (c1, p1) (c2, p2))).2 := by
    unfold extract
    rw [hk]
  have hcc' : alookup ((extract geo s c1 p1 c2 p2).2).connection_cache
      (sortKey (c1, p1) (c2, p2)) = some (some (calculate_path_length p)) := by
    have := extract_cache_lookup geo s c1 p1 c2 p2
    rw [hpart1] at this
    exact this
  have hpc1 : alookup ((extract geo s c1 p1 c2 p2).2).pad_cache (c1, p1) = some pa := by
    rw [hstate]
    show alookup ((storeCC _ _ _).pad_cache) (c1, p1) = some pa
    show alookup ((resolvePad (resolvePad s c1 p1).2 c2 p2).2).pad_cache (c1, p1) = some pa
    exact resolvePad_cache_mono _ _ _ _ _ _ (resolvePad_cache_lookup s c1 p1 pa ha)
  have hpc2 : alookup ((extract geo s c1 p1 c2 p2).2).pad_cache (c2, p2) = some pb := by
    rw [hstate]
    show alookup ((resolvePad (resolvePad s c1 p1).2 c2 p2).2).pad_cache (c2, p2) = some pb
    exact resolvePad_cache_lookup _ c2 p2 pb hb1
  have hobj' : ((extract geo s c1 p1 c2 p2).2).objects = s.objects := by
    rw [hstate]
    show ((resolvePad (resolvePad s c1 p1).2 c2 p2).2).objects = s.objects
    exact hobj2
  unfold get_trace_path
  rw [extract_hit geo _ c1 p1 c2 p2 _ hcc', hpc1, hpc2, hobj']
  simp only [hB, TracePathResult.elementsLengthMM, elemLengthSum_pathElements,
    calculate_path_length]

/-- Witness for the amended C2 at the spec's synthetic fixture: the track is
1 mil off each pad centre, so the exact-endpoint graph has no path and the
tolerance graph carries the 150-mil (3.81 mm) track. -/
theorem trace_path_sum_matches_witness :
    alookup sBoard1.connection_cache (sortKey ("U1", "1") ("R1", "1")) = none ∧
    resolveVal sBoard1 "U1" "1" = some padU1 ∧
    resolveVal sBoard1 "R1" "1" = some padR1 ∧
    padU1.net_name = padR1.net_name ∧
    dijkstra objKey (build_accurate_graph (netObjsFor sBoard1.objects padU1 padR1)
        padU1 padR1) (.pad padU1) (.pad padR1) = none ∧
    dijkstra objKey (build_bidirectional_graph geoF
        (netObjsFor sBoard1.objects padU1 padR1) padU1 padR1)
        (.pad padU1) (.pad padR1) = some [.pad padU1, .track trackB1, .pad padR1] ∧
    (extract geoF sBoard1 "U1" "1" "R1" "1").1
        = some (calculate_path_length [.pad padU1, .track trackB1, .pad padR1]) ∧
    (get_trace_path geoF (extract geoF sBoard1 "U1" "1" "R1" "1").2
        "U1" "1" "R1" "1").1.elementsLengthMM
        = some (calculate_path_length [.pad padU1, .track trackB1, .pad padR1]) := by
  refine ⟨by decide, by decide, by decide, by decide, by decide, by decide, ?_, ?_⟩
  · exact (trace_path_sum_matches_when_tolerance_graph_wins geoF sBoard1
      "U1" "1" "R1" "1" padU1 padR1 [.pad padU1, .track trackB1, .pad padR1]
      (by decide) (by decide) (by decide) (by decide) (by decide) (by decide)).1
  · exact (trace_path_sum_matches_when_tolerance_graph_wins geoF sBoard1
      "U1" "1" "R1" "1" padU1 padR1 [.pad padU1, .track trackB1, .pad padR1]
      (by decide) (by decide) (by decide) (by decide) (by decide) (by decide)).2

set_option maxRecDepth 200000 in
/-- C2 (counterexample): on `board2`, `trace_length` returns 2.54 mm (from
the exact-endpoint strategy) while the Track/Arc elements returned by
`trace_path` for the same pair sum to 2.286 mm (from the re-run
tolerance-graph search) — a mismatch far beyond the 1e-6 mm tolerance. -/
theorem trace_path_sum_mismatch_example :
    (extract geoF sBoard2 "A1" "1" "B1" "1").1 = some (127 / 50) ∧
    ((get_trace_path geoF sBoard2After "A1" "1" "B1" "1").1).elementsLengthMM
        = some (1143 / 500) ∧
    ¬ (|(127 / 50 : ℚ) - 1143 / 500| ≤ 1 / 1000000) := by
  refine ⟨by decide, by decide, by decide⟩

/-! ## Load failure behaviour (claim C5) -/

/-- C5 (amended): a load that fails before JSON decoding (missing file or
undecodable contents) leaves the prior model intact; once a board has been
decoded, the resulting state — successful or aborted half-way by a missing
required field — never depends on the prior state (the model is cleared
first), but an aborted parse can leave the model partially populated. -/
theorem load_failure_state_policy (s : State) (d : BoardData) :
    load_json_file s .fileNotFound = (s, false) ∧
    load_json_file s .badJson = (s, false) ∧
    load_json_file s (.parsed d) = load_json_file emptyState (.parsed d) :=
  ⟨rfl, rfl, rfl⟩

/-- C5 (counterexample): loading `boardBad` (whose second track record lacks
`netName`) over the non-empty prior state `sPrior` fails, and the resulting
model is neither the prior state nor empty: it holds the two pads and the
first track — a strict subset of the board's four describable objects. -/
theorem load_partial_state_example :
    (load_json_file sPrior (.parsed boardBad)).2 = false ∧
    (load_json_file sPrior (.parsed boardBad)).1 ≠ sPrior ∧
    (load_json_file sPrior (.parsed boardBad)).1.objects ≠ [] ∧
    (load_json_file sPrior (.parsed boardBad)).1.objects.length = 3 := by
  refine ⟨by decide, by decide, by decide, by decide⟩

/-! ## Edge weights of the pairwise graph builders (claim C7) -/

theorem addNode_edges (G : WGraph NetObject) (a : NetObject) :
    (G.addNode objKey a).edges = G.edges := by
  unfold WGraph.addNode
  split <;> rfl

theorem addNodes_edges (G : WGraph NetObject) (l : List NetObject) :
    (G.addNodes objKey l).edges = G.edges := by
  induction l generalizing G with
  | nil => rfl
  | cons x xs ih =>
    show ((G.addNode objKey x).addNodes objKey xs).edges = G.edges
    rw [ih, addNode_edges]

theorem rep_key (G : WGraph NetObject) (a : NetObject) :
    objKey (G.rep objKey a) = objKey a := by
  unfold WGraph.rep
  cases h : G.nodes.find? (fun n => decide (objKey n = objKey a)) with
  | none => rfl
  | some n =>
    have := List.find?_some h
    simpa using this

theorem edgeWeight_eq_none_iff (G : WGraph NetObject) (a b : NetObject) :
    G.edgeWeight objKey a b = none ↔
      G.edges.find? (WGraph.edgeMatches objKey a b) = none := by
  unfold WGraph.edgeWeight
  cases G.edges.find? (WGraph.edgeMatches objKey a b) <;> simp

/-- Appending an edge preserves an existing stored weight (the first match
in the edge list wins). -/
theorem edgeWeight_addEdge_of_some (G : WGraph NetObject) (a b x y : NetObject)
    (w v : ℚ) (h : G.edgeWeight objKey a b = some v) :
    (G.addEdge objKey x y w).edgeWeight objKey a b = some v := by
  unfold WGraph.addEdge WGraph.edgeWeight
  rw [addNode_edges, addNode_edges]
  unfold WGraph.edgeWeight at h
  rcases Option.map_eq_some'.mp h with ⟨e, he, hev⟩
  rw [List.find?_append, he]
  simpa using hev

/-- Appending an edge whose endpoint keys do not match `{a, b}` preserves
the absence of an `{a, b}` edge. -/
theorem edgeWeight_addEdge_of_none (G : WGraph NetObject) (a b x y : NetObject)
    (w : ℚ) (h : G.edgeWeight objKey a b = none)
    (hmm : ¬ ((objKey x = objKey a ∧ objKey y = objKey b) ∨
              (objKey x = objKey b ∧ objKey y = objKey a))) :
    (G.addEdge objKey x y w).edgeWeight objKey a b = none := by
  unfold WGraph.addEdge WGraph.edgeWeight
  rw [addNode_edges, addNode_edges]
  rw [edgeWeight_eq_none_iff] at h
  rw [List.find?_append, h]
  have : WGraph.edgeMatches objKey a b
      (((G.addNode objKey x).addNode objKey y).rep objKey x,
       ((G.addNode objKey x).addNode objKey y).rep objKey y, w) = false := by
    unfold WGraph.edgeMatches
    simp only [rep_key]
    rcases not_or.mp hmm with ⟨h1, h2⟩
    rcases not_and_or.mp h1 with h1' | h1' <;> rcases not_and_or.mp h2 with h2' | h2' <;>
      simp [h1', h2']
  simp [List.find?, this]

/-- Creating the `{x, y}` edge makes its weight visible when no `{x, y}`
edge existed before. -/
theorem edgeWeight_addEdge_self (G : WGraph NetObject) (x y : NetObject) (w : ℚ)
    (h : G.edgeWeight objKey x y = none) :
    (G.addEdge objKey x y w).edgeWeight objKey x y = some w := by
  unfold WGraph.addEdge WGraph.edgeWeight
  rw [addNode_edges, addNode_edges]
  rw [edgeWeight_eq_none_iff] at h
  rw [List.find?_append, h]
  have : WGraph.edgeMatches objKey x y
      (((G.addNode objKey x).addNode objKey y).rep objKey x,
       ((G.addNode objKey x).addNode objKey y).rep objKey y, w) = true := by
    unfold WGraph.edgeMatches
    simp [rep_key]
  simp [List.find?, this]

theorem innerPairLoop_of_some (conn : NetObject → NetObject → Bool)
    (wf : NetObject → NetObject → ℚ) (o : NetObject) (l : List NetObject)
    (G : WGraph NetObject) (a b : NetObject) (v : ℚ)
    (h : G.edgeWeight objKey a b = some v) :
    (innerPairLoop conn wf o l G).edgeWeight objKey a b = some v := by
  induction l generalizing G with
  | nil => exact h
  | cons x xs ih =>
    show (innerPairLoop conn wf o xs _).edgeWeight objKey a b = some v
    apply ih
    split
    · exact edgeWeight_addEdge_of_some G a b o x (wf o x) v h
    · exact h

theorem pairLoop_of_some (conn : NetObject → NetObject → Bool)
    (wf : NetObject → NetObject → ℚ) (l : List NetObject)
    (G : WGraph NetObject) (a b : NetObject) (v : ℚ)
    (h : G.edgeWeight objKey a b = some v) :
    (pairLoop conn wf l G).edgeWeight objKey a b = some v := by
  induction l generalizing G with
  | nil => exact h
  | cons x xs ih =>
    show (pairLoop conn wf xs _).edgeWeight objKey a b = some v
    exact ih _ (innerPairLoop_of_some conn wf x xs G a b v h)

/-- The inner loop for a head `o` whose key is neither `a`'s nor `b`'s adds
no `{a, b}` edge. -/
theorem innerPairLoop_of_none (conn : NetObject → NetObject → Bool)
    (wf : NetObject → NetObject → ℚ) (o : NetObject) (l : List NetObject)
    (G : WGraph NetObject) (a b : NetObject)
    (h : G.edgeWeight objKey a b = none)
    (hoa : objKey o ≠ objKey a) (hob : objKey o ≠ objKey b) :
    (innerPairLoop conn wf o l G).edgeWeight objKey a b = none := by
  induction l generalizing G with
  | nil => exact h
  | cons x xs ih =>
    show (innerPairLoop conn wf o xs _).edgeWeight objKey a b = none
    apply ih
    split
    · exact edgeWeight_addEdge_of_none G a b o x (wf o x) h
        (by rintro (⟨h1, _⟩ | ⟨h1, _⟩) <;> [exact hoa h1; exact hob h1])
    · exact h

/-- The inner loop for head `o1` over a tail containing `o2` (with all keys
distinct) creates the `{o1, o2}` edge with weight `wf o1 o2` when
`conn o1 o2` holds. -/
theorem innerPairLoop_creates (conn : NetObject → NetObject → Bool)
    (wf : NetObject → NetObject → ℚ) (o1 o2 : NetObject)
    (l1 l2 : List NetObject) (G : WGraph NetObject)
    (hG : G.edgeWeight objKey o1 o2 = none)
    (hconn : conn o1 o2 = true)
    (hne : objKey o1 ≠ objKey o2)
    (hl1 : ∀ x ∈ l1, objKey x ≠ objKey o2) :
    (innerPairLoop conn wf o1 (l1 ++ o2 :: l2) G).edgeWeight objKey o1 o2
      = some (wf o1 o2) := by
  induction l1 generalizing G with
  | nil =>
    show (innerPairLoop conn wf o1 l2 _).edgeWeight objKey o1 o2 = some (wf o1 o2)
    apply innerPairLoop_of_some
    have hhas : G.hasEdge objKey o1 o2 = false := by
      unfold WGraph.hasEdge
      rw [hG]; rfl
    rw [if_pos (by rw [hconn, hhas]; rfl)]
    exact edgeWeight_addEdge_self G o1 o2 (wf o1 o2) hG
  | cons x xs ih =>
    show (innerPairLoop conn wf o1 (xs ++ o2 :: l2) _).edgeWeight objKey o1 o2
        = some (wf o1 o2)
    have hxo2 : objKey x ≠ objKey o2 := hl1 x (List.mem_cons_self x xs)
    apply ih
    · split
      · exact edgeWeight_addEdge_of_none G o1 o2 o1 x (wf o1 x) hG
          (by rintro (⟨_, h2⟩ | ⟨h1, _⟩) <;> [exact hxo2 h2; exact hne h1])
      · exact hG
    · exact fun y hy => hl1 y (List.mem_cons_of_mem x hy)

/-- The pairwise loop over `l1 ++ o1 :: l2 ++ o2 :: l3` with pairwise
distinct keys stores the `{o1, o2}` edge with weight `wf o1 o2` whenever
`conn o1 o2` holds. -/
theorem pairLoop_edgeWeight (conn : NetObject → NetObject → Bool)
    (wf : NetObject → NetObject → ℚ) (l1 l2 l3 : List NetObject)
    (o1 o2 : NetObject) (G : WGraph NetObject)
    (hG : G.edgeWeight objKey o1 o2 = none)
    (hconn : conn o1 o2 = true)
    (hnodup : (l1 ++ o1 :: l2 ++ o2 :: l3).Pairwise
      (fun a b => objKey a ≠ objKey b)) :
    (pairLoop conn wf (l1 ++ o1 :: l2 ++ o2 :: l3) G).edgeWeight objKey o1 o2
      = some (wf o1 o2) := by
  induction l1 generalizing G with
  | nil =>
    show (pairLoop conn wf (l2 ++ o2 :: l3)
        (innerPairLoop conn wf o1 (l2 ++ o2 :: l3) G)).edgeWeight objKey o1 o2
        = some (wf o1 o2)
    simp only [List.nil_append] at hnodup
    cases hnodup with
    | cons hhead htail =>
      have hne : objKey o1 ≠ objKey o2 := hhead o2 (by simp)
      have hl2 : ∀ x ∈ l2, objKey x ≠ objKey o2 := fun x hx =>
        (List.pairwise_append.mp htail).2.2 x hx o2 (by simp)
      apply pairLoop_of_some
      exact innerPairLoop_creates conn wf o1 o2 l2 l3 G hG hconn hne hl2
  | cons x xs ih =>
    show (pairLoop conn wf (xs ++ o1 :: l2 ++ o2 :: l3)
        (innerPairLoop conn wf x (xs ++ o1 :: l2 ++ o2 :: l3) G)).edgeWeight objKey o1 o2
        = some (wf o1 o2)
    simp only [List.cons_append] at hnodup
    cases hnodup with
    | cons hhead htail =>
      have hxo1 : objKey x ≠ objKey o1 := hhead o1 (by simp)
      have hxo2 : objKey x ≠ objKey o2 := hhead o2 (by simp)
      exact ih _ (innerPairLoop_of_none conn wf x _ G o1 o2 hG hxo1 hxo2) htail

/-- C7 (amended): for every pair of objects at distinct positions of the
net-object list (all object identities distinct) that `is_connected`
reports connected at the default tolerance, the in-use Strategy B builder
`build_bidirectional_graph` stores an edge weighted exactly by the shared
strategy-A policy (`edgeWeightPolicy` — the first linear operand's length,
no averaging); the length-averaging weight exists only in the unused
`build_fallback_graph` (at its own tolerance), with the same Pad↔Track/Arc
override. -/
theorem tolerance_and_fallback_graph_edge_weights (geo : GeoOracle)
    (l1 l2 l3 : List NetObject) (o1 o2 : NetObject) (pa pb : PadData)
    (hnodup : (l1 ++ o1 :: l2 ++ o2 :: l3).Pairwise
      (fun a b => objKey a ≠ objKey b))
    (hconnB : is_connected geo o1 o2 CONNECT_TOLERANCE = true)
    (hconnF : is_connected geo o1 o2 FALLBACK_TOLERANCE = true) :
    (build_bidirectional_graph geo (l1 ++ o1 :: l2 ++ o2 :: l3) pa pb).edgeWeight
        objKey o1 o2 = some (edgeWeightPolicy o1 o2) ∧
    (build_fallback_graph geo (l1 ++ o1 :: l2 ++ o2 :: l3) pa pb).edgeWeight
        objKey o1 o2 = some (fallbackWeightPolicy o1 o2) := by
  constructor
  · unfold build_bidirectional_graph
    unfold WGraph.edgeWeight
    rw [addNode_edges, addNode_edges]
    show (pairLoop _ _ _ _).edgeWeight objKey o1 o2 = _
    apply pairLoop_edgeWeight
    · rw [edgeWeight_eq_none_iff]
      show (WGraph.addNodes _ _ _).edges.find? _ = none
      rw [addNodes_edges]
      rfl
    · exact hconnB
    · exact hnodup
  · unfold build_fallback_graph
    unfold WGraph.edgeWeight
    rw [addNode_edges, addNode_edges]
    show (pairLoop _ _ _ _).edgeWeight objKey o1 o2 = _
    apply pairLoop_edgeWeight
    · rw [edgeWeight_eq_none_iff]
      show (WGraph.addNodes _ _ _).edges.find? _ = none
      rw [addNodes_edges]
      rfl
    · exact hconnF
    · exact hnodup

/-- Witness for the amended C7: the two fixture tracks share an endpoint,
and the stored tolerance-graph weight is the first track's length in mm
(2.54), while the fallback builder would store the average (3.81). -/
theorem tolerance_and_fallback_graph_edge_weights_witness :
    ([NetObject.pad pad7a, NetObject.pad pad7b] ++ NetObject.track t7a :: [] ++ NetObject.track t7b :: []).Pairwise
      (fun a b => objKey a ≠ objKey b) ∧
    is_connected geoF (.track t7a) (.track t7b) CONNECT_TOLERANCE = true ∧
    is_connected geoF (.track t7a) (.track t7b) FALLBACK_TOLERANCE = true ∧
    (build_bidirectional_graph geoF
        ([NetObject.pad pad7a, NetObject.pad pad7b] ++ NetObject.track t7a :: [] ++ NetObject.track t7b :: [])
        pad7a pad7b).edgeWeight objKey (.track t7a) (.track t7b)
      = some (edgeWeightPolicy (.track t7a) (.track t7b)) ∧
    (build_fallback_graph geoF
        ([NetObject.pad pad7a, NetObject.pad pad7b] ++ NetObject.track t7a :: [] ++ NetObject.track t7b :: [])
        pad7a pad7b).edgeWeight objKey (.track t7a) (.track t7b)
      = some (fallbackWeightPolicy (.track t7a) (.track t7b)) := by
  refine ⟨by decide, by decide, by decide, ?_, ?_⟩
  · exact (tolerance_and_fallback_graph_edge_weights geoF
      [NetObject.pad pad7a, NetObject.pad pad7b] [] [] (.track t7a) (.track t7b) pad7a pad7b
      (by decide) (by decide) (by decide)).1
  · exact (tolerance_and_fallback_graph_edge_weights geoF
      [NetObject.pad pad7a, NetObject.pad pad7b] [] [] (.track t7a) (.track t7b) pad7a pad7b
      (by decide) (by decide) (by decide)).2

/-- C7 (counterexample): the in-use Strategy B builder weights the
connected track pair (lengths 100 and 200 mils) at 2.54 mm — the first
track's length — not at the claimed average-with-floor (3.81 mm). -/
theorem tolerance_graph_weight_not_average_example :
    (build_bidirectional_graph geoF objs7 pad7a pad7b).edgeWeight objKey
        (.track t7a) (.track t7b) = some (127 / 50) ∧
    (some (127 / 50) : Option ℚ)
      ≠ some (fallbackWeightPolicy (.track t7a) (.track t7b)) := by
  refine ⟨by decide, by decide⟩

/-! ## The discovered-jumper crash (claim C8) -/

/-- C8: on a board with one connector-like component (two pads on nets "A"
and "B", 50 mils apart) the discovery step returns two pair-lists, and the
multi-net analysis then crashes: the code zips *consecutive entries* of the
discovered list and passes the two-element lists themselves to
`G.add_edge`, where an unhashable `list` raises an uncaught `TypeError`
(modelled as `Except.error ()`).  No weight-zero edge between the two pads
of the discovered pair is ever added, and instead of a null result the
caller gets an exception. -/
theorem discovered_jumpers_crash_example :
    discover_jumper_points sBoardJ
      = [[("J1", "1"), ("J1", "2")], [("J1", "2"), ("J1", "1")]] ∧
    (analyze_multi_net_path_auto geoF sBoardJ "J1" "1" "J1" "2").1
      = Except.error () := by
  refine ⟨by decide, by decide⟩

/-! ## Impedance bounds (claim C4) -/

theorem le_clampR (lo hi x : ℝ) : lo ≤ clampR lo hi x := le_max_left lo _

theorem clampR_le (lo hi x : ℝ) (h : lo ≤ hi) : clampR lo hi x ≤ hi :=
  max_le h (min_le_left hi x)

theorem clampR_mono (lo hi x y : ℝ) (h : x ≤ y) : clampR lo hi x ≤ clampR lo hi y :=
  max_le_max le_rfl (min_le_min le_rfl h)

theorem clampR_eq_hi (lo hi x : ℝ) (hx : hi ≤ x) (hlohi : lo ≤ hi) :
    clampR lo hi x = hi := by
  unfold clampR
  rw [min_eq_left hx]
  exact max_eq_right hlohi

/-- C4: for every track (any width, absent, zero or negative) and every
stackup (any heights and dielectric constants), the microstrip impedance
lies in [20, 120] Ω and the stripline impedance in [25, 120] Ω.  Both
results are total real values — every Python `ValueError` /
`ZeroDivisionError` branch is caught and yields the in-range 50 Ω default,
so the calculators never return a negative or non-finite value and never
raise. -/
theorem impedance_results_bounded (track : TrackData) (stackup : PCBStackup) :
    20 ≤ calculate_microstrip_impedance track stackup ∧
    calculate_microstrip_impedance track stackup ≤ 120 ∧
    25 ≤ calculate_stripline_impedance track stackup ∧
    calculate_stripline_impedance track stackup ≤ 120 := by
  unfold calculate_microstrip_impedance calculate_stripline_impedance
  cases stackup.get_layer_by_number track.layer with
  | none => norm_num
  | some layer =>
    refine ⟨?_, ?_, ?_, ?_⟩ <;>
      simp only [] <;>
      split_ifs <;>
      first
        | exact le_clampR _ _ _
        | exact clampR_le _ _ _ (by norm_num)
        | norm_num

/-! ## Impedance versus width (claim C9) -/

theorem layerHeight_pos (layer : PCBLayer) : 0 < layerHeight layer := by
  unfold layerHeight
  split_ifs with h
  · norm_num
  · exact lt_of_not_le h

theorem microWidth_setWidth (t : TrackData) (w : ℚ) (hw : (0:ℝ) < (w:ℝ)) :
    microWidth (setWidth t w) = (w:ℝ) := by
  show (if ((w:ℚ):ℝ) ≤ 0 then (0.1:ℝ) else ((w:ℚ):ℝ)) = (w:ℝ)
  rw [if_neg (not_le.mpr hw)]

theorem stripWidth_setWidth (t : TrackData) (w : ℚ) :
    stripWidth (setWidth t w) = (w:ℝ) := rfl

theorem setWidth_layer (t : TrackData) (w : ℚ) : (setWidth t w).layer = t.layer := rfl

theorem exp_three_lt : Real.exp 3 < 21 := by
  have h1 : Real.exp 3 = Real.exp 1 ^ (3:ℕ) := (Real.exp_one_pow 3).symm
  have h2 : Real.exp 1 ^ (3:ℕ) < 2.7182818286 ^ (3:ℕ) := by
    gcongr
    exact Real.exp_one_lt_d9
  have h3 : (2.7182818286:ℝ) ^ (3:ℕ) < 21 := by norm_num
  rw [h1]
  exact lt_trans h2 h3

theorem three_le_log (x : ℝ) (hx : 21 ≤ x) : (3:ℝ) ≤ Real.log x := by
  rw [Real.le_log_iff_exp_le (by linarith)]
  exact (lt_of_lt_of_le exp_three_lt hx).le

theorem sqrt_four : Real.sqrt ((4:ℚ):ℝ) = 2 := by
  rw [show (((4:ℚ):ℝ)) = (2:ℝ) ^ 2 by norm_num]
  exact Real.sqrt_sq (by norm_num)

/-- On the tall fixture stackup (height 100, εr 4), any width in (0, 25]
drives the raw microstrip formula above 120 Ω, so the clamp saturates. -/
theorem micro_stack9_saturates (w : ℚ) (hw : (0:ℝ) < (w:ℝ))
    (h21 : (21:ℝ) ≤ 1 + 5 * ((100:ℚ):ℝ) / (w:ℝ)) :
    calculate_microstrip_impedance (setWidth t9narrow w) stack9 = 120 := by
  have hlayer : stack9.get_layer_by_number (setWidth t9narrow w).layer
      = some ⟨"Top", 1, 100, "FR4", 4⟩ := by
    show stack9.get_layer_by_number 1 = some ⟨"Top", 1, 100, "FR4", 4⟩
    decide
  unfold calculate_microstrip_impedance
  rw [hlayer]
  simp only []
  rw [if_neg (by norm_num : ¬ (((((4:ℚ)):ℚ):ℝ)) ≤ 0)]
  have hh : layerHeight ⟨"Top", 1, 100, "FR4", 4⟩ = ((100:ℚ):ℝ) := by
    show (if ((100:ℚ):ℝ) ≤ 0 then (0.1:ℝ) else ((100:ℚ):ℝ)) = ((100:ℚ):ℝ)
    rw [if_neg (by norm_num)]
  rw [microWidth_setWidth t9narrow w hw, hh]
  have hlog : (3:ℝ) ≤ Real.log (1 + 5 * ((100:ℚ):ℝ) / (w:ℝ)) := three_le_log _ h21
  apply clampR_eq_hi _ _ _ _ (by norm_num)
  have hs : Real.sqrt ((((4:ℚ)):ℝ)) = 2 := sqrt_four
  rw [hs]
  calc (120:ℝ) = (80 / 2) * 3 := by norm_num
    _ ≤ (80 / 2) * Real.log (1 + 5 * ((100:ℚ):ℝ) / (w:ℝ)) := by
        apply mul_le_mul_of_nonneg_left hlog
        norm_num

/-- C9 (counterexample): on the tall stackup both the 1-mil and the 2-mil
track compute a clamped microstrip impedance of exactly 120 Ω, so the
narrower track's impedance is *not* strictly higher than the wider one's. -/
theorem clamped_impedance_not_strict_example :
    calculate_microstrip_impedance (setWidth t9narrow 1) stack9 = 120 ∧
    calculate_microstrip_impedance (setWidth t9narrow 2) stack9 = 120 ∧
    ¬ (calculate_microstrip_impedance (setWidth t9narrow 2) stack9
        < calculate_microstrip_impedance (setWidth t9narrow 1) stack9) := by
  have h1 := micro_stack9_saturates 1 (by norm_num) (by push_cast; norm_num)
  have h2 := micro_stack9_saturates 2 (by norm_num) (by push_cast; norm_num)
  exact ⟨h1, h2, by rw [h1, h2]; exact lt_irrefl _⟩

/-- C9 (amended): for two tracks identical except width, with both widths
positive and the first strictly narrower, the narrower track's microstrip
impedance is at least (not strictly above) the wider track's — equality
occurs when both hit the same clamp bound or the same 50 Ω error default.
The same holds for the stripline impedance whenever the wider track's
primary (IPC-2141) formula value is positive, i.e. both widths stay on the
main branch; across the fallback branch even this can fail. -/
theorem impedance_antitone_in_width (track : TrackData) (stackup : PCBStackup)
    (w1 w2 : ℚ) (h0 : 0 < w1) (h12 : w1 < w2) :
    calculate_microstrip_impedance (setWidth track w2) stackup
      ≤ calculate_microstrip_impedance (setWidth track w1) stackup ∧
    (striplineMainPositive (setWidth track w2) stackup →
      calculate_stripline_impedance (setWidth track w2) stackup
        ≤ calculate_stripline_impedance (setWidth track w1) stackup) := by
  have hw1 : (0:ℝ) < (w1:ℝ) := by exact_mod_cast h0
  have hw2 : (0:ℝ) < (w2:ℝ) := lt_trans hw1 (by exact_mod_cast h12)
  have h12' : (w1:ℝ) ≤ (w2:ℝ) := by exact_mod_cast h12.le
  constructor
  · unfold calculate_microstrip_impedance
    rw [setWidth_layer, setWidth_layer]
    cases hL : stackup.get_layer_by_number track.layer with
    | none => exact le_refl _
    | some layer =>
      simp only []
      split_ifs with her
      · exact le_refl _
      · rw [microWidth_setWidth track w1 hw1, microWidth_setWidth track w2 hw2]
        apply clampR_mono
        have hh := layerHeight_pos layer
        have harg2 : (0:ℝ) < 1 + 5 * layerHeight layer / (w2:ℝ) := by positivity
        apply mul_le_mul_of_nonneg_left _ (by positivity)
        apply Real.log_le_log harg2
        gcongr
  · intro hpos
    unfold striplineMainPositive at hpos
    rw [setWidth_layer] at hpos
    unfold calculate_stripline_impedance
    rw [setWidth_layer, setWidth_layer]
    cases hL : stackup.get_layer_by_number track.layer with
    | none => rw [hL] at hpos
    | some layer =>
      rw [hL] at hpos
      simp only [] at hpos ⊢
      obtain ⟨her, hz2⟩ := hpos
      rw [stripWidth_setWidth] at hz2
      have hh := layerHeight_pos layer
      rw [stripWidth_setWidth, stripWidth_setWidth]
      have hden1 : (0:ℝ) < 0.8 * (w1:ℝ) + 1.4 := by linarith
      have hden2 : (0:ℝ) < 0.8 * (w2:ℝ) + 1.4 := by linarith
      have harg1 : (0:ℝ) < 1.9 * (2 * layerHeight layer / (0.8 * (w1:ℝ) + 1.4)) := by
        positivity
      have harg2 : (0:ℝ) < 1.9 * (2 * layerHeight layer / (0.8 * (w2:ℝ) + 1.4)) := by
        positivity
      have hmono : (60 / Real.sqrt ((layer.dielectric_constant : ℚ) : ℝ)) *
            Real.log (1.9 * (2 * layerHeight layer / (0.8 * (w2:ℝ) + 1.4)))
          ≤ (60 / Real.sqrt ((layer.dielectric_constant : ℚ) : ℝ)) *
            Real.log (1.9 * (2 * layerHeight layer / (0.8 * (w1:ℝ) + 1.4))) := by
        apply mul_le_mul_of_nonneg_left _ (by positivity)
        apply Real.log_le_log harg2
        gcongr
      have hz1 : (0:ℝ) < (60 / Real.sqrt ((layer.dielectric_constant : ℚ) : ℝ)) *
          Real.log (1.9 * (2 * layerHeight layer / (0.8 * (w1:ℝ) + 1.4))) :=
        lt_of_lt_of_le hz2 hmono
      rw [if_neg (not_le.mpr her), if_neg (not_le.mpr her)]
      rw [if_neg (ne_of_gt hden1), if_neg (ne_of_gt hden2)]
      rw [if_neg (not_le.mpr harg1), if_neg (not_le.mpr harg2)]
      rw [if_neg (not_le.mpr hz1), if_neg (not_le.mpr hz2)]
      exact clampR_mono _ _ _ _ hmono

/-- Witness for the amended C9 at widths 1 < 2 on the moderate stackup. -/
theorem impedance_antitone_in_width_witness :
    (0:ℚ) < 1 ∧ (1:ℚ) < 2 ∧
    calculate_microstrip_impedance (setWidth t9narrow 2) stack9w
      ≤ calculate_microstrip_impedance (setWidth t9narrow 1) stack9w :=
  ⟨by norm_num, by norm_num,
   (impedance_antitone_in_width t9narrow stack9w 1 2 (by norm_num) (by norm_num)).1⟩

end PCB
